import Mathlib

/-!
# RoadToRack — verification of the simulation kernel

A shallow embedding of the battery-swap discrete-event simulation
(`backend/app`): entities (`models/entities/*.py`), the metrics collector
(`simulation/metrics.py`), movement and activity strategies
(`simulation/movement_strategies.py`, `simulation/activity_strategies.py`),
movement scheduling (`simulation/mechanics.py`), the event set
(`simulation/events.py`), the scheduler queue (`simulation/scheduler.py`)
and the engine (`core/simulation_engine.py`).

Modelling conventions:
* Python floats are embedded as exact rationals `ℚ`; grid coordinates are `ℤ`.
* Entity ids (strings `"scooter_3"`, `"battery_7"`, `"station_0"` in the
  source) are embedded as the numeric part, a `ℕ`; the world's Python dicts
  become insertion-ordered association lists `List (ℕ × _)`, whose key plays
  the role of the entity's `id` field.
* In-place mutation of entities becomes functional update of the
  association list; since Python never removes dict entries, iteration
  order (list order) is stable, as in the source.
* Diagnostic strings (`reason`, `description`) are omitted: no behaviour
  reads them.
* The one statement that can raise in event processing
  (`BatterySwapEvent.process` writing through `station.get_slot` when the
  deposit index is out of range) is embedded with `Except`: the error value
  carries the partially mutated world, mirroring the mutations executed
  before the Python `AttributeError`.
* `MissType.PARTIAL_CHARGE`, `was_partial` and `partial_charge_misses` from
  `metrics.py` are rendered `lowCharge`, `was_low` and `low_charge_misses`.
-/

namespace RoadToRack

/-- Python `%` on rationals: `a - b * ⌊a / b⌋` (sign of the divisor),
matching float `%` used by `time_utils.py` and the activity strategies. -/
def hmod (a b : ℚ) : ℚ := a - b * (⌊a / b⌋ : ℤ)

/-! ## `models/entities/position.py` -/

/-- `Position`: immutable 2D grid position. -/
structure Position where
  x : ℤ
  y : ℤ
  deriving DecidableEq, Repr

/-- `Position.distance_to`: Manhattan distance (an exact integer in the
source, returned as float). -/
def Position.distance_to (p q : Position) : ℚ :=
  ((p.x - q.x).natAbs + (p.y - q.y).natAbs : ℕ)

/-- `Position.neighbors`: the 4-connected neighbours clipped to the grid. -/
def Position.neighbors (p : Position) (grid_width grid_height : ℤ) :
    List Position :=
  [Position.mk (p.x + 1) p.y, Position.mk (p.x - 1) p.y,
   Position.mk p.x (p.y + 1), Position.mk p.x (p.y - 1)].filter
    (fun q => 0 ≤ q.x && q.x < grid_width && 0 ≤ q.y && q.y < grid_height)

/-! ## `models/entities/battery.py` -/

/-- `BatteryLocation`. -/
inductive BatteryLocation where
  | inScooter
  | inStation
  deriving DecidableEq, Repr

/-- `Battery` (the dict key serves as `id`). -/
structure Battery where
  capacity_kwh : ℚ
  max_charge_rate_kw : ℚ
  current_charge_kwh : ℚ
  location : BatteryLocation
  station_id : Option ℕ := none
  slot_index : Option ℕ := none
  scooter_id : Option ℕ := none
  deriving DecidableEq, Repr

/-- `Battery.charge_level` (total on `ℚ`: division by a zero capacity
yields `0` where Python would raise; capacities are positive throughout). -/
def Battery.charge_level (b : Battery) : ℚ :=
  b.current_charge_kwh / b.capacity_kwh

/-- `Battery.is_full`: within `0.0001` of capacity. -/
def Battery.is_full (b : Battery) : Bool :=
  decide (b.capacity_kwh - 0.0001 ≤ b.current_charge_kwh)

/-- `Battery.time_to_full_charge`: seconds to full at `charge_rate_kw`. -/
def Battery.time_to_full_charge (b : Battery) (charge_rate_kw : ℚ) : ℚ :=
  let remaining := b.capacity_kwh - b.current_charge_kwh
  if remaining ≤ 0 then 0 else remaining / charge_rate_kw * 3600

/-- `Battery.add_charge`: add energy, capped at capacity. -/
def Battery.add_charge (b : Battery) (energy_kwh : ℚ) : Battery :=
  { b with
    current_charge_kwh :=
      min b.capacity_kwh (b.current_charge_kwh + energy_kwh) }

/-- `Battery.consume_energy`: consume energy, floored at 0. -/
def Battery.consume_energy (b : Battery) (energy_kwh : ℚ) : Battery :=
  { b with current_charge_kwh := max 0 (b.current_charge_kwh - energy_kwh) }

/-! ## `models/entities/station.py` -/

/-- `ChargingSlot`. -/
structure ChargingSlot where
  index : ℕ
  battery_id : Option ℕ := none
  is_charging : Bool := false
  deriving DecidableEq, Repr

/-- `Station` (the dict key serves as `id`). -/
structure Station where
  position : Position
  num_slots : ℕ
  charge_rate_kw : ℚ
  slots : List ChargingSlot
  deriving DecidableEq, Repr

/-- Association-list lookup standing for Python dict `get`. -/
def lookupA {α : Type} : List (ℕ × α) → ℕ → Option α
  | [], _ => none
  | p :: l, k => if p.1 = k then some p.2 else lookupA l k

/-- In-place mutation of the entry at key `k` of a Python dict. -/
def updateA {α : Type} : List (ℕ × α) → ℕ → (α → α) → List (ℕ × α)
  | [], _, _ => []
  | p :: l, k, f =>
    (if p.1 = k then (p.1, f p.2) else p) :: updateA l k f

/-- In-place mutation of the `i`-th element of a Python list. -/
def modifyAt {α : Type} (l : List α) (i : ℕ) (f : α → α) : List α :=
  match l, i with
  | [], _ => []
  | a :: l, 0 => f a :: l
  | a :: l, i + 1 => a :: modifyAt l i f

/-- `Station.get_best_battery_slot`: the slot (by its `index` field) whose
battery has the strictly highest charge level; the first maximum in slot
order wins, starting from charge `-1`. -/
def Station.get_best_battery_slot (st : Station)
    (batteries : List (ℕ × Battery)) : Option ℕ :=
  (st.slots.foldl
    (fun acc slot =>
      match slot.battery_id with
      | none => acc
      | some bid =>
        match lookupA batteries bid with
        | none => acc
        | some b =>
          if b.charge_level > acc.2 then (some slot.index, b.charge_level)
          else acc)
    ((none : Option ℕ), (-1 : ℚ))).1

/-- `Station.get_empty_slot`: the first slot with no battery. -/
def Station.get_empty_slot (st : Station) : Option ℕ :=
  (st.slots.find? (fun slot => slot.battery_id = none)).map
    (fun slot => slot.index)

/-- `Station.get_slot`: bounds-checked positional access. -/
def Station.get_slot (st : Station) (index : ℕ) : Option ChargingSlot :=
  st.slots.get? index

/-! ## `models/entities/scooter.py` -/

/-- `ScooterState`. -/
inductive ScooterState where
  | moving
  | travelingToStation
  | swapping
  | waitingForBattery
  | idle
  deriving DecidableEq, Repr

/-! ### Strategy state (`simulation/movement_strategies.py`,
`simulation/activity_strategies.py`)

Movement strategies carry mutable state (`DirectedMovementStrategy`'s
destination map), so they are embedded as data updated functionally.
`DirectedMovementStrategy._idle_behavior` is only ever set through
`set_idle_behavior`, which the engine never calls, so it is embedded as
absent (the fallback returns the scooter's position). -/

/-- Movement strategy state: `RandomWalkStrategy` or
`DirectedMovementStrategy` with its `_destinations` map. -/
inductive MovStrat where
  | randomWalk
  | directed (destinations : List (ℕ × Position))
  deriving DecidableEq, Repr

/-- `GreedyStationSeekingBehavior` is the only station-seeking behaviour. -/
inductive SeekStrat where
  | greedy
  deriving DecidableEq, Repr

/-- Activity strategy: `AlwaysActiveStrategy` or `ScheduledActivityStrategy`
with its constructor parameters. -/
inductive ActStrat where
  | alwaysActive
  | scheduled (activity_start_hour activity_end_hour : ℚ)
      (max_distance_per_day_km : Option ℚ) (low_battery_threshold : ℚ)
      (meters_per_grid_unit : ℚ) (time_scale : ℚ)
  deriving DecidableEq, Repr

/-- `Scooter` (the dict key serves as `id`). -/
structure Scooter where
  position : Position
  battery_id : ℕ
  state : ScooterState
  speed : ℚ
  consumption_rate : ℚ
  swap_threshold : ℚ
  target_station_id : Option ℕ := none
  target_position : Option Position := none
  movement_strategy : Option MovStrat := none
  group_id : Option ℕ := none
  activity_strategy : Option ActStrat := none
  distance_traveled_today : ℚ := 0
  idle_until : Option ℚ := none
  deriving DecidableEq, Repr

/-- `Scooter.needs_swap`. -/
def Scooter.needs_swap (s : Scooter) (battery_charge_level : ℚ) : Bool :=
  decide (battery_charge_level < s.swap_threshold)

/-- `Scooter.travel_time` (total on `ℚ`; speeds are positive throughout). -/
def Scooter.travel_time (s : Scooter) (distance : ℚ) : ℚ :=
  if distance ≤ 0 then 0 else distance / s.speed

/-! ## `simulation/metrics.py` -/

/-- `MissType` (`lowCharge` renders `PARTIAL_CHARGE`). -/
inductive MissType where
  | noBattery
  | lowCharge
  deriving DecidableEq, Repr

/-- `MissEvent`. -/
structure MissEvent where
  timestamp : ℚ
  scooter_id : ℕ
  station_id : ℕ
  miss_type : MissType
  charge_level : Option ℚ := none
  deriving DecidableEq, Repr

/-- `SwapEvent` (`was_low` renders `was_partial`). -/
structure SwapEvent where
  timestamp : ℚ
  scooter_id : ℕ
  station_id : ℕ
  old_battery_level : ℚ
  new_battery_level : ℚ
  was_low : Bool
  deriving DecidableEq, Repr

/-- `MetricsCollector`. -/
structure Metrics where
  miss_events : List MissEvent := []
  swap_events : List SwapEvent := []
  swaps_per_station : List (ℕ × ℕ) := []
  wait_start_times : List (ℕ × ℚ) := []
  wait_durations : List ℚ := []
  miss_rate_history : List (ℚ × ℚ) := []
  sample_interval : ℚ := 60
  last_sample_time : ℚ := 0
  deriving DecidableEq, Repr

/-- `MetricsCollector.record_no_battery_miss`. -/
def Metrics.record_no_battery_miss (m : Metrics) (time : ℚ)
    (scooter_id station_id : ℕ) : Metrics :=
  { m with
    miss_events := m.miss_events ++
      [⟨time, scooter_id, station_id, MissType.noBattery, none⟩]
    wait_start_times :=
      (m.wait_start_times.filter (fun p => p.1 ≠ scooter_id)) ++
        [(scooter_id, time)] }

/-- `MetricsCollector.record_partial_charge_miss`. -/
def Metrics.record_low_charge_miss (m : Metrics) (time : ℚ)
    (scooter_id station_id : ℕ) (charge_level : ℚ) : Metrics :=
  { m with
    miss_events := m.miss_events ++
      [⟨time, scooter_id, station_id, MissType.lowCharge, some charge_level⟩] }

/-- `MetricsCollector.record_swap`: append the swap, bump the per-station
count, record a `PARTIAL_CHARGE` miss when the delivered battery is below
`0.9999`, and close any open wait interval of the scooter. -/
def Metrics.record_swap (m : Metrics) (time : ℚ) (scooter_id station_id : ℕ)
    (old_battery_level new_battery_level : ℚ) : Metrics :=
  let was_low : Bool := decide (new_battery_level < 0.9999)
  let m₁ :=
    { m with
      swap_events := m.swap_events ++
        [⟨time, scooter_id, station_id, old_battery_level,
          new_battery_level, was_low⟩]
      swaps_per_station :=
        match lookupA m.swaps_per_station station_id with
        | some c => updateA m.swaps_per_station station_id (fun _ => c + 1)
        | none => m.swaps_per_station ++ [(station_id, 1)] }
  let m₂ :=
    if was_low then
      m₁.record_low_charge_miss time scooter_id station_id new_battery_level
    else m₁
  match lookupA m₂.wait_start_times scooter_id with
  | some start =>
    { m₂ with
      wait_durations := m₂.wait_durations ++ [time - start]
      wait_start_times :=
        m₂.wait_start_times.filter (fun p => p.1 ≠ scooter_id) }
  | none => m₂

/-- `MetricsCollector.total_swaps`. -/
def Metrics.total_swaps (m : Metrics) : ℕ := m.swap_events.length

/-- `MetricsCollector.total_misses`. -/
def Metrics.total_misses (m : Metrics) : ℕ := m.miss_events.length

/-- `MetricsCollector.no_battery_misses`. -/
def Metrics.no_battery_misses (m : Metrics) : ℕ :=
  (m.miss_events.filter (fun e => e.miss_type = MissType.noBattery)).length

/-- `MetricsCollector.partial_charge_misses`. -/
def Metrics.low_charge_misses (m : Metrics) : ℕ :=
  (m.miss_events.filter (fun e => e.miss_type = MissType.lowCharge)).length

/-- `MetricsCollector.current_miss_rate`: `0` when there are no swaps,
otherwise `total_misses / total_swaps`. -/
def Metrics.current_miss_rate (m : Metrics) : ℚ :=
  if m.total_swaps = 0 then 0 else (m.total_misses : ℚ) / (m.total_swaps : ℚ)

/-- `MetricsCollector.sample_metrics`. -/
def Metrics.sample_metrics (m : Metrics) (current_time : ℚ) : Metrics :=
  if m.sample_interval ≤ current_time - m.last_sample_time then
    { m with
      miss_rate_history :=
        m.miss_rate_history ++ [(current_time, m.current_miss_rate)]
      last_sample_time := current_time }
  else m

/-- The miss-rate formula as the spec states it:
`total_misses / max(1, total_swaps)`. -/
def specMissRate (m : Metrics) : ℚ :=
  (m.total_misses : ℚ) / (max 1 m.total_swaps : ℕ)

/-! ## `simulation/scheduler.py` — the seeded RNG

`np.random.default_rng(seed)` is embedded as an abstract deterministic
stream of naturals fixed at seeding time, advanced by a cursor; the PCG64
bit generator itself is beyond a shallow embedding, but every property
proved here uses only that the stream is a function of the seed. -/

/-- The state of `EventScheduler._rng`. -/
structure Rng where
  stream : ℕ → ℕ
  cursor : ℕ

/-- `rng.integers(lo, hi)`: a draw in `[lo, hi)` (numpy half-open default),
advancing the generator. Callers guard `hi > lo`. -/
def Rng.integers (r : Rng) (lo hi : ℕ) : ℕ × Rng :=
  (lo + r.stream r.cursor % (hi - lo), { r with cursor := r.cursor + 1 })

/-! ## `models/entities/world.py` -/

/-- `WorldState`. `scooter_groups` (display metadata) is omitted: nothing
behavioural reads it. There is no `activity_strategy` attribute, matching
the dataclass; events reach it through `getattr(world, 'activity_strategy',
None)`, which always yields `None` here. -/
structure World where
  current_time : ℚ := 0
  batteries : List (ℕ × Battery) := []
  stations : List (ℕ × Station) := []
  scooters : List (ℕ × Scooter) := []
  grid_width : ℤ := 100
  grid_height : ℤ := 100
  time_scale : ℚ := 60
  meters_per_grid_unit : ℚ := 100
  metrics : Option Metrics := none
  movement_strategy : Option MovStrat := none
  station_seeking_behavior : Option SeekStrat := none

/-- `WorldState.get_battery`. -/
def World.get_battery (w : World) (battery_id : ℕ) : Option Battery :=
  lookupA w.batteries battery_id

/-- `WorldState.get_station`. -/
def World.get_station (w : World) (station_id : ℕ) : Option Station :=
  lookupA w.stations station_id

/-- `WorldState.get_scooter`. -/
def World.get_scooter (w : World) (scooter_id : ℕ) : Option Scooter :=
  lookupA w.scooters scooter_id

/-- `WorldState.find_nearest_station`: linear scan, strict improvement, so
the first station (insertion order) wins ties. Returns the key and the
station. -/
def World.find_nearest_station (w : World) (position : Position) :
    Option (ℕ × Station) :=
  w.stations.foldl
    (fun acc p =>
      match acc with
      | none => some p
      | some q =>
        if position.distance_to p.2.position <
            position.distance_to q.2.position then some p else acc)
    none

/-- Apply an update to the optional metrics collector
(`if world.metrics: ...` in the events). -/
def World.withMetrics (w : World) (f : Metrics → Metrics) : World :=
  { w with metrics := w.metrics.map f }

/-! ## `simulation/time_utils.py` -/

/-- `get_hour_of_day`: `(simulation_time / 3600) % 24`. -/
def get_hour_of_day (simulation_time : ℚ) : ℚ :=
  hmod (simulation_time / 3600) 24

/-- `get_day_number` / `ScheduledActivityStrategy._get_day_number`:
`int(total_hours // 24)` (float floor division then truncation of an
integral value, i.e. the floor). -/
def get_day_number (simulation_time : ℚ) : ℤ :=
  ⌊simulation_time / 3600 / 24⌋

/-- `get_next_midnight`: start of the next simulated day. -/
def get_next_midnight (current_simulation_time : ℚ) : ℚ :=
  ((get_day_number current_simulation_time + 1) * 24 : ℤ) * 3600

/-! ## `simulation/activity_strategies.py` -/

/-- `ActivityDecision` (`swapThenIdle` renders `SWAP_THEN_IDLE`). -/
inductive ActDecision where
  | continueActive
  | goIdle
  | swapThenIdle
  deriving DecidableEq, Repr

/-- `ActivityCheckResult` (the `reason` string is omitted; the one consumer
of a reason, `_calculate_wake_up_time`, receives it as `WakeReason`). -/
structure ActivityCheckResult where
  decision : ActDecision
  wake_up_time : Option ℚ := none
  deriving DecidableEq, Repr

/-- The `reason` strings `"outside_hours"` / `"distance_limit"` passed to
`_calculate_wake_up_time`. -/
inductive WakeReason where
  | outsideHours
  | distanceLimit
  deriving DecidableEq, Repr

/-- `ScheduledActivityStrategy._is_within_active_hours`. -/
def isWithinActiveHours (activity_start_hour activity_end_hour
    hour_of_day : ℚ) : Bool :=
  if activity_start_hour ≤ activity_end_hour then
    decide (activity_start_hour ≤ hour_of_day) &&
      decide (hour_of_day < activity_end_hour)
  else
    decide (hour_of_day ≥ activity_start_hour) ||
      decide (hour_of_day < activity_end_hour)

/-- `ScheduledActivityStrategy._distance_to_km`. -/
def distanceToKm (meters_per_grid_unit grid_units : ℚ) : ℚ :=
  grid_units * meters_per_grid_unit / 1000

/-- `ScheduledActivityStrategy._has_exceeded_daily_distance`. -/
def hasExceededDailyDistance (max_distance_per_day_km : Option ℚ)
    (meters_per_grid_unit : ℚ) (sc : Scooter) : Bool :=
  match max_distance_per_day_km with
  | none => false
  | some max_km =>
    decide (max_km ≤ distanceToKm meters_per_grid_unit
      sc.distance_traveled_today)

/-- `ScheduledActivityStrategy._calculate_wake_up_time`. -/
def calcWakeUpTime (activity_start_hour activity_end_hour : ℚ)
    (current_time : ℚ) (reason : WakeReason) : ℚ :=
  let hour_of_day := get_hour_of_day current_time
  let hours_until_wake :=
    match reason with
    | WakeReason.outsideHours =>
      if activity_end_hour ≤ hour_of_day then
        (24 - hour_of_day) + activity_start_hour
      else activity_start_hour - hour_of_day
    | WakeReason.distanceLimit => (24 - hour_of_day) + activity_start_hour
  current_time + hours_until_wake * 3600

/-- `check_activity` for both strategies (`AlwaysActiveStrategy` always
continues; `ScheduledActivityStrategy` gates on hours then distance). -/
def ActStrat.check_activity (strat : ActStrat) (sc : Scooter) (w : World) :
    ActivityCheckResult :=
  match strat with
  | ActStrat.alwaysActive => ⟨ActDecision.continueActive, none⟩
  | ActStrat.scheduled start_h end_h max_km low_thr mpgu _ =>
    let current_time := w.current_time
    let hour_of_day := get_hour_of_day current_time
    if ¬ isWithinActiveHours start_h end_h hour_of_day then
      let wake_time :=
        calcWakeUpTime start_h end_h current_time WakeReason.outsideHours
      match w.get_battery sc.battery_id with
      | some battery =>
        if battery.charge_level < low_thr then
          ⟨ActDecision.swapThenIdle, some wake_time⟩
        else ⟨ActDecision.goIdle, some wake_time⟩
      | none => ⟨ActDecision.goIdle, some wake_time⟩
    else if hasExceededDailyDistance max_km mpgu sc then
      let wake_time :=
        calcWakeUpTime start_h end_h current_time WakeReason.distanceLimit
      match w.get_battery sc.battery_id with
      | some battery =>
        if battery.charge_level < low_thr then
          ⟨ActDecision.swapThenIdle, some wake_time⟩
        else ⟨ActDecision.goIdle, some wake_time⟩
      | none => ⟨ActDecision.goIdle, some wake_time⟩
    else ⟨ActDecision.continueActive, none⟩

/-- `should_wake_up` for both strategies. `ScheduledActivityStrategy`
first tests `scooter.idle_until and current_time >= scooter.idle_until`
(Python truthiness: an `idle_until` of `0.0` is falsy). -/
def ActStrat.should_wake_up (strat : ActStrat) (sc : Scooter) (_w : World)
    (current_time : ℚ) : Bool :=
  match strat with
  | ActStrat.alwaysActive => true
  | ActStrat.scheduled start_h end_h max_km _ mpgu _ =>
    match sc.idle_until with
    | none => false
    | some u =>
      if u ≠ 0 && decide (u ≤ current_time) then
        if isWithinActiveHours start_h end_h
            (get_hour_of_day current_time) then
          ! hasExceededDailyDistance max_km mpgu sc
        else false
      else false

/-- `on_day_reset` (both strategies zero the daily distance). -/
def ActStrat.on_day_reset (_strat : ActStrat) (sc : Scooter) : Scooter :=
  { sc with distance_traveled_today := 0 }

/-! ## `simulation/movement_strategies.py` — behaviour -/

/-- The greedy single step shared verbatim by
`DirectedMovementStrategy.get_next_destination` and
`GreedyStationSeekingBehavior.get_next_step_toward_station`: reduce `dx`
first, then `dy`. -/
def greedyStep (current target : Position) : Position :=
  let dx := target.x - current.x
  let dy := target.y - current.y
  if dx ≠ 0 then ⟨current.x + (if 0 < dx then 1 else -1), current.y⟩
  else if dy ≠ 0 then ⟨current.x, current.y + (if 0 < dy then 1 else -1)⟩
  else current

/-- `get_next_destination` for both movement strategies. Returns the
destination, the (possibly mutated) strategy state and the advanced RNG.
`DirectedMovementStrategy` with no idle behaviour returns the current
position when unassigned, and clears the destination upon arrival. -/
def MovStrat.get_next_destination (strat : MovStrat) (scooter_id : ℕ)
    (sc : Scooter) (w : World) (rng : Rng) : Position × MovStrat × Rng :=
  match strat with
  | MovStrat.randomWalk =>
    let nbrs := sc.position.neighbors w.grid_width w.grid_height
    if nbrs.isEmpty then (sc.position, strat, rng)
    else
      let (idx, rng') := rng.integers 0 nbrs.length
      (nbrs.getD idx sc.position, strat, rng')
  | MovStrat.directed dests =>
    match lookupA dests scooter_id with
    | none => (sc.position, strat, rng)
    | some target =>
      if sc.position = target then
        (sc.position,
         MovStrat.directed (dests.filter (fun p => p.1 ≠ scooter_id)), rng)
      else (greedyStep sc.position target, strat, rng)

/-- `GreedyStationSeekingBehavior.get_next_step_toward_station`. -/
def SeekStrat.get_next_step_toward_station (_b : SeekStrat) (sc : Scooter) :
    Position :=
  match sc.target_position with
  | none => sc.position
  | some target => greedyStep sc.position target

/-! ## The event kinds (`simulation/events.py`) -/

/-- `SWAP_DURATION = 30.0`. -/
def SWAP_DURATION : ℚ := 30

/-- The tagged set of event kinds. `scooterArrive.station_id` is optional
because `ScooterMoveEvent.process` forwards `scooter.target_station_id`
unchecked. -/
inductive Event where
  | scooterMove (scooter_id : ℕ) (new_position : Position)
  | scooterArrive (scooter_id : ℕ) (station_id : Option ℕ)
  | batterySwap (scooter_id station_id take_from_slot deposit_to_slot : ℕ)
  | chargingTick (station_id : ℕ) (tick_interval : ℚ)
  | fullyCharged (battery_id station_id slot_index : ℕ)
  | goIdle (scooter_id : ℕ) (wake_up_time : ℚ)
  | wakeUp (scooter_id : ℕ)
  | swapThenIdle (scooter_id : ℕ) (wake_up_time : ℚ)
  | dailyReset (day_number : ℕ)
  deriving DecidableEq, Repr

/-! ## `simulation/mechanics.py` -/

/-- `schedule_move`: pick the next free-roam destination via the world's
movement strategy (falling back to `DEFAULT_MOVEMENT_STRATEGY`, a
`RandomWalkStrategy`), with travel time `distance / speed`, or `0.1` for a
degenerate zero-distance move. The mutated strategy state is written back
to the world. -/
def schedule_move (scooter_id : ℕ) (sc : Scooter) (w : World) (rng : Rng) :
    (Event × ℚ) × World × Rng :=
  let strategy := w.movement_strategy.getD MovStrat.randomWalk
  let (next_pos, strategy', rng') :=
    strategy.get_next_destination scooter_id sc w rng
  let w' :=
    match w.movement_strategy with
    | some _ => { w with movement_strategy := some strategy' }
    | none => w
  let distance := sc.position.distance_to next_pos
  let travel_time := if 0 < distance then sc.travel_time distance else 0.1
  ((Event.scooterMove scooter_id next_pos, w.current_time + travel_time),
   w', rng')

/-- `schedule_move_toward_station`: one greedy step toward the target
(falling back to `schedule_move` when there is no target), with travel
time `distance / speed`, or `0.0` for a degenerate zero-distance step. -/
def schedule_move_toward_station (scooter_id : ℕ) (sc : Scooter) (w : World)
    (rng : Rng) : (Event × ℚ) × World × Rng :=
  match sc.target_position with
  | none => schedule_move scooter_id sc w rng
  | some _ =>
    let behavior := w.station_seeking_behavior.getD SeekStrat.greedy
    let next_pos := behavior.get_next_step_toward_station sc
    let distance := sc.position.distance_to next_pos
    let travel_time := if 0 < distance then sc.travel_time distance else 0
    ((Event.scooterMove scooter_id next_pos, w.current_time + travel_time),
     w, rng)

/-- Modelled from the spec: `schedule_move_with_activity_check` is imported
from `app.simulation.mechanics` by `events.py` and
`core/simulation_engine.py` but is not defined in the sources available;
§4.C step 3 of the spec describes it: consult the activity strategy
(per-scooter override, else the world default — absent here — else
`AlwaysActive`); if `CONTINUE_ACTIVE`, schedule the next free-roam move;
otherwise emit a `ScooterGoIdleEvent` or `ScooterSwapThenIdleEvent` per the
decision, carrying the strategy's `wake_up_time`. -/
def schedule_move_with_activity_check (scooter_id : ℕ) (sc : Scooter)
    (w : World) (rng : Rng) : (Event × ℚ) × World × Rng :=
  let strategy := sc.activity_strategy.getD ActStrat.alwaysActive
  let result := strategy.check_activity sc w
  match result.decision with
  | ActDecision.continueActive => schedule_move scooter_id sc w rng
  | ActDecision.goIdle =>
    ((Event.goIdle scooter_id (result.wake_up_time.getD w.current_time),
      w.current_time), w, rng)
  | ActDecision.swapThenIdle =>
    ((Event.swapThenIdle scooter_id
        (result.wake_up_time.getD w.current_time),
      w.current_time), w, rng)

/-! ## Event processing (`simulation/events.py`)

`processEvent maxTime e w rng` is `e.process(world, scheduler)`:
`maxTime` is `scheduler.max_time` and `rng` is `scheduler.get_rng()`. The
result is the mutated world, the advanced RNG and the returned
`(event, time)` pairs; `Except.error` is the one reachable exception
(writing through a `None` deposit slot in `BatterySwapEvent.process`),
carrying the world as mutated up to that statement. -/

/-- `ScooterMoveEvent.process`. -/
def processScooterMove (scooter_id : ℕ) (new_position : Position)
    (w : World) (rng : Rng) : World × Rng × List (Event × ℚ) :=
  match w.get_scooter scooter_id with
  | none => (w, rng, [])
  | some scooter =>
    match w.get_battery scooter.battery_id with
    | none => (w, rng, [])
    | some battery =>
      let distance := scooter.position.distance_to new_position
      let energy_consumed := distance * scooter.consumption_rate
      let battery := battery.consume_energy energy_consumed
      let w := { w with
        batteries := updateA w.batteries scooter.battery_id
          (fun _ => battery) }
      let scooter := { scooter with
        distance_traveled_today := scooter.distance_traveled_today + distance
        position := new_position }
      let scooter :=
        if scooter.needs_swap battery.charge_level &&
            scooter.state = ScooterState.moving then
          match w.find_nearest_station scooter.position with
          | some (nearest_id, nearest) =>
            { scooter with
              state := ScooterState.travelingToStation
              target_station_id := some nearest_id
              target_position := some nearest.position }
          | none => scooter
        else scooter
      let w := { w with
        scooters := updateA w.scooters scooter_id (fun _ => scooter) }
      match scooter.state with
      | ScooterState.moving =>
        let ((e, t), w, rng) :=
          schedule_move_with_activity_check scooter_id scooter w rng
        (w, rng, [(e, t)])
      | ScooterState.travelingToStation =>
        if some scooter.position = scooter.target_position then
          (w, rng,
           [(Event.scooterArrive scooter_id scooter.target_station_id,
             w.current_time)])
        else
          let ((e, t), w, rng) :=
            schedule_move_toward_station scooter_id scooter w rng
          (w, rng, [(e, t)])
      | _ => (w, rng, [])

/-- `ScooterArriveAtStationEvent.process`. -/
def processScooterArrive (scooter_id : ℕ) (station_id : Option ℕ)
    (w : World) (rng : Rng) : World × Rng × List (Event × ℚ) :=
  match station_id with
  | none => (w, rng, [])
  | some station_id =>
    match w.get_scooter scooter_id, w.get_station station_id with
    | some _, some station =>
      let best_slot := station.get_best_battery_slot w.batteries
      let empty_slot := station.get_empty_slot
      match best_slot, empty_slot with
      | some best, some empty =>
        let w := { w with
          scooters := updateA w.scooters scooter_id
            (fun sc => { sc with state := ScooterState.swapping }) }
        (w, rng,
         [(Event.batterySwap scooter_id station_id best empty,
           w.current_time + SWAP_DURATION)])
      | _, _ =>
        let w := { w with
          scooters := updateA w.scooters scooter_id
            (fun sc => { sc with state := ScooterState.waitingForBattery }) }
        let w := w.withMetrics (fun m =>
          m.record_no_battery_miss w.current_time scooter_id station_id)
        (w, rng, [])
    | _, _ => (w, rng, [])

/-- `BatterySwapEvent.process`. The old battery's back-references are
written before the deposit slot is dereferenced, so an out-of-range
`deposit_to_slot` raises with those writes already applied
(`Except.error`). -/
def processBatterySwap (scooter_id station_id take_from_slot
    deposit_to_slot : ℕ) (w : World) (rng : Rng) :
    Except World (World × Rng × List (Event × ℚ)) :=
  match w.get_scooter scooter_id, w.get_station station_id with
  | some scooter, some station =>
    let old_battery_id := scooter.battery_id
    let take_slot := station.get_slot take_from_slot
    let deposit_slot := station.get_slot deposit_to_slot
    match take_slot.bind (fun slot => slot.battery_id) with
    | none =>
      -- battery taken by another scooter during the swap duration
      let new_best_slot := station.get_best_battery_slot w.batteries
      let new_empty_slot := station.get_empty_slot
      match new_best_slot, new_empty_slot with
      | some new_best, some new_empty =>
        Except.ok (w, rng,
          [(Event.batterySwap scooter_id station_id new_best new_empty,
            w.current_time + SWAP_DURATION)])
      | _, _ =>
        let w := { w with
          scooters := updateA w.scooters scooter_id
            (fun sc => { sc with state := ScooterState.waitingForBattery }) }
        let w := w.withMetrics (fun m =>
          m.record_no_battery_miss w.current_time scooter_id station_id)
        Except.ok (w, rng, [])
    | some new_battery_id =>
      match w.get_battery old_battery_id, w.get_battery new_battery_id with
      | some old_battery, some new_battery =>
        let old_battery_level := old_battery.charge_level
        let new_battery_level := new_battery.charge_level
        -- 1. put old battery in station
        let old_battery := { old_battery with
          location := BatteryLocation.inStation
          station_id := some station_id
          slot_index := some deposit_to_slot
          scooter_id := none }
        let w := { w with
          batteries := updateA w.batteries old_battery_id
            (fun _ => old_battery) }
        match deposit_slot with
        | none => Except.error w
        | some _ =>
          let depositWrite := fun (slot : ChargingSlot) =>
            { slot with battery_id := some old_battery_id
                        is_charging := true }
          let w := { w with
            stations := updateA w.stations station_id (fun st =>
              { st with
                slots := modifyAt st.slots deposit_to_slot depositWrite }) }
          -- 2. take new battery from station
          let new_battery := { new_battery with
            location := BatteryLocation.inScooter
            scooter_id := some scooter_id
            station_id := none
            slot_index := none }
          let w := { w with
            batteries := updateA w.batteries new_battery_id
              (fun _ => new_battery) }
          let takeClear := fun (slot : ChargingSlot) =>
            { slot with battery_id := none, is_charging := false }
          let w := { w with
            stations := updateA w.stations station_id (fun st =>
              { st with
                slots := modifyAt st.slots take_from_slot takeClear }) }
          -- 3. update scooter
          let scooter := { scooter with
            battery_id := new_battery_id
            state := ScooterState.moving
            target_station_id := none
            target_position := none }
          let w := { w with
            scooters := updateA w.scooters scooter_id (fun _ => scooter) }
          -- 4. record swap in metrics
          let w := w.withMetrics (fun m =>
            m.record_swap w.current_time scooter_id station_id
              old_battery_level new_battery_level)
          -- 5. schedule charging event for deposited battery
          let evs :=
            if ! old_battery.is_full then
              [(Event.fullyCharged old_battery_id station_id deposit_to_slot,
                w.current_time +
                  old_battery.time_to_full_charge station.charge_rate_kw)]
            else []
          -- 6. post-swap idle or next move
          match scooter.idle_until with
          | some wake_up_time =>
            let w := { w with
              scooters := updateA w.scooters scooter_id
                (fun sc => { sc with idle_until := none }) }
            Except.ok (w, rng,
              evs ++ [(Event.goIdle scooter_id wake_up_time,
                w.current_time)])
          | none =>
            -- on_scooter_activated is a no-op for both strategies
            let ((e, t), w, rng) :=
              schedule_move_with_activity_check scooter_id scooter w rng
            Except.ok (w, rng, evs ++ [(e, t)])
      | _, _ => Except.ok (w, rng, [])
  | _, _ => Except.ok (w, rng, [])

/-- The per-slot body of `BatteryChargingTickEvent.process`: a battery in
a charging slot that is not yet full gains
`charge_rate_kw * tick_interval / 3600`, clamped by `add_charge`. -/
def chargeSlotStep (station : Station) (tick_interval : ℚ) (wacc : World)
    (slot : ChargingSlot) : World :=
  match slot.battery_id with
  | none => wacc
  | some battery_id =>
    if slot.is_charging then
      match lookupA wacc.batteries battery_id with
      | none => wacc
      | some battery =>
        if ! battery.is_full then
          let charge_added := station.charge_rate_kw * tick_interval / 3600
          { wacc with
            batteries := updateA wacc.batteries battery_id
              (fun _ => battery.add_charge charge_added) }
        else wacc
    else wacc

/-- `BatteryChargingTickEvent.process`: fold the charge update over the
station's slots, then re-arm strictly inside `scheduler.max_time`. -/
def processChargingTick (station_id : ℕ) (tick_interval : ℚ)
    (maxTime : ℚ) (w : World) (rng : Rng) :
    World × Rng × List (Event × ℚ) :=
  match w.get_station station_id with
  | none => (w, rng, [])
  | some station =>
    let w := station.slots.foldl (chargeSlotStep station tick_interval) w
    let next_tick_time := w.current_time + tick_interval
    let evs :=
      if next_tick_time < maxTime then
        [(Event.chargingTick station_id tick_interval, next_tick_time)]
      else []
    (w, rng, evs)

/-- The waiting-scooter condition of `BatteryFullyChargedEvent.process`. -/
def isWaitingAt (station_id : ℕ) (p : ℕ × Scooter) : Bool :=
  p.2.state = ScooterState.waitingForBattery &&
    p.2.target_station_id = some station_id

/-- `BatteryFullyChargedEvent.process`. The Python scans the scooters in
insertion order and breaks at the first `WAITING_FOR_BATTERY` scooter
targeting this station if an empty slot exists; when there is no empty
slot the scan mutates nothing for any of them, so the loop is the
first-match search below. -/
def processFullyCharged (battery_id station_id slot_index : ℕ)
    (w : World) (rng : Rng) : World × Rng × List (Event × ℚ) :=
  match w.get_battery battery_id, w.get_station station_id with
  | some _, some station =>
    let w := { w with
      batteries := updateA w.batteries battery_id
        (fun b => { b with current_charge_kwh := b.capacity_kwh }) }
    let w :=
      match station.get_slot slot_index with
      | some _ =>
        { w with
          stations := updateA w.stations station_id (fun st =>
            { st with
              slots := modifyAt st.slots slot_index
                (fun slot => { slot with is_charging := false }) }) }
      | none => w
    match w.scooters.find? (isWaitingAt station_id) with
    | some (waiting_id, _) =>
      -- get_empty_slot depends only on battery_id fields, untouched above
      match station.get_empty_slot with
      | some empty_slot =>
        let w := { w with
          scooters := updateA w.scooters waiting_id
            (fun sc => { sc with state := ScooterState.swapping }) }
        (w, rng,
         [(Event.batterySwap waiting_id station_id slot_index empty_slot,
           w.current_time + SWAP_DURATION)])
      | none => (w, rng, [])
    | none => (w, rng, [])
  | _, _ => (w, rng, [])

/-- `ScooterGoIdleEvent.process`. -/
def processGoIdle (scooter_id : ℕ) (wake_up_time : ℚ) (w : World)
    (rng : Rng) : World × Rng × List (Event × ℚ) :=
  match w.get_scooter scooter_id with
  | none => (w, rng, [])
  | some _ =>
    let w := { w with
      scooters := updateA w.scooters scooter_id (fun sc =>
        { sc with
          state := ScooterState.idle
          idle_until := some wake_up_time
          target_station_id := none
          target_position := none }) }
    (w, rng, [(Event.wakeUp scooter_id, wake_up_time)])

/-- `ScooterWakeUpEvent.process` (a `wake_up_time` of `0.0` is falsy in
`if result.wake_up_time:`, so no reschedule happens then). -/
def processWakeUp (scooter_id : ℕ) (w : World) (rng : Rng) :
    World × Rng × List (Event × ℚ) :=
  match w.get_scooter scooter_id with
  | none => (w, rng, [])
  | some scooter =>
    if scooter.state ≠ ScooterState.idle then (w, rng, [])
    else
      let strategy := scooter.activity_strategy.getD ActStrat.alwaysActive
      if ! strategy.should_wake_up scooter w w.current_time then
        let result := strategy.check_activity scooter w
        match result.wake_up_time with
        | some t => if t ≠ 0 then (w, rng, [(Event.wakeUp scooter_id, t)])
                    else (w, rng, [])
        | none => (w, rng, [])
      else
        let scooter := { scooter with
          state := ScooterState.moving
          idle_until := none }
        let w := { w with
          scooters := updateA w.scooters scooter_id (fun _ => scooter) }
        -- on_scooter_activated is a no-op for both strategies
        let ((e, t), w, rng) := schedule_move scooter_id scooter w rng
        (w, rng, [(e, t)])

/-- `ScooterSwapThenIdleEvent.process`. -/
def processSwapThenIdle (scooter_id : ℕ) (wake_up_time : ℚ) (w : World)
    (rng : Rng) : World × Rng × List (Event × ℚ) :=
  match w.get_scooter scooter_id with
  | none => (w, rng, [])
  | some scooter =>
    let scooter := { scooter with idle_until := some wake_up_time }
    let w := { w with
      scooters := updateA w.scooters scooter_id (fun _ => scooter) }
    match w.find_nearest_station scooter.position with
    | some (nearest_id, nearest) =>
      let scooter := { scooter with
        state := ScooterState.travelingToStation
        target_station_id := some nearest_id
        target_position := some nearest.position }
      let w := { w with
        scooters := updateA w.scooters scooter_id (fun _ => scooter) }
      let ((e, t), w, rng) :=
        schedule_move_toward_station scooter_id scooter w rng
      (w, rng, [(e, t)])
    | none =>
      (w, rng, [(Event.goIdle scooter_id wake_up_time, w.current_time)])

/-- The per-scooter body of `DailyResetEvent.process`: `on_day_reset`,
then wake an idle scooter that `should_wake_up`. -/
def dailyResetStep (acc : World × Rng × List (Event × ℚ))
    (scooter_id : ℕ) : World × Rng × List (Event × ℚ) :=
  let (w, rng, evs) := acc
  match w.get_scooter scooter_id with
  | none => (w, rng, evs)
  | some scooter =>
    let strategy := scooter.activity_strategy.getD ActStrat.alwaysActive
    let scooter := strategy.on_day_reset scooter
    let w := { w with
      scooters := updateA w.scooters scooter_id (fun _ => scooter) }
    if scooter.state = ScooterState.idle &&
        strategy.should_wake_up scooter w w.current_time then
      let scooter := { scooter with
        state := ScooterState.moving
        idle_until := none }
      let w := { w with
        scooters := updateA w.scooters scooter_id (fun _ => scooter) }
      -- on_scooter_activated is a no-op for both strategies
      let ((e, t), w, rng) := schedule_move scooter_id scooter w rng
      (w, rng, evs ++ [(e, t)])
    else (w, rng, evs)

/-- `DailyResetEvent.process`: fold the per-scooter step, then re-arm at
the next midnight when inside `scheduler.max_time`. The iteration is over
the (stable) key list of the scooters dict, looking up the current entry
as the fold mutates the world. -/
def processDailyReset (day_number : ℕ) (maxTime : ℚ) (w : World)
    (rng : Rng) : World × Rng × List (Event × ℚ) :=
  let (w, rng, evs) :=
    (w.scooters.map (fun p => p.1)).foldl dailyResetStep (w, rng, [])
  let next_midnight := get_next_midnight w.current_time
  let evs :=
    if next_midnight < maxTime then
      evs ++ [(Event.dailyReset (day_number + 1), next_midnight)]
    else evs
  (w, rng, evs)

/-- `Event.process(world, scheduler)`, dispatching on the event kind. -/
def processEvent (maxTime : ℚ) (e : Event) (w : World) (rng : Rng) :
    Except World (World × Rng × List (Event × ℚ)) :=
  match e with
  | Event.scooterMove sid pos => Except.ok (processScooterMove sid pos w rng)
  | Event.scooterArrive sid stid =>
    Except.ok (processScooterArrive sid stid w rng)
  | Event.batterySwap sid stid take dep =>
    processBatterySwap sid stid take dep w rng
  | Event.chargingTick stid interval =>
    Except.ok (processChargingTick stid interval maxTime w rng)
  | Event.fullyCharged bid stid slot =>
    Except.ok (processFullyCharged bid stid slot w rng)
  | Event.goIdle sid wake => Except.ok (processGoIdle sid wake w rng)
  | Event.wakeUp sid => Except.ok (processWakeUp sid w rng)
  | Event.swapThenIdle sid wake =>
    Except.ok (processSwapThenIdle sid wake w rng)
  | Event.dailyReset day =>
    Except.ok (processDailyReset day maxTime w rng)

/-! ## `simulation/scheduler.py` — the event queue

The heap of `ScheduledEvent(scheduled_time, event_id, event)` values,
ordered lexicographically by `(scheduled_time, event_id)` (`event` is
`compare=False`), is embedded as a list with `pop = remove the minimum`.
`next_event_id()` is the process-global `_event_counter`, threaded
explicitly as a `ℕ` everywhere it is read or reset. -/

/-- A queue entry `(scheduled_time, event_id, event)`. -/
abbrev QEntry := ℚ × ℕ × Event

/-- Strict heap order on entries: `(time, id)` lexicographic. -/
def entryLT (a b : QEntry) : Bool :=
  a.1 < b.1 || (a.1 = b.1 && a.2.1 < b.2.1)

/-- One comparison step of the minimum scan. -/
def minStep (acc : Option QEntry) (e : QEntry) : Option QEntry :=
  match acc with
  | none => some e
  | some m => if entryLT e m then some e else acc

/-- The minimum entry of the queue (first of the equal-least, though ids
are unique in every queue the engine builds). -/
def minEntry (q : List QEntry) : Option QEntry :=
  q.foldl minStep none

/-- `EventScheduler.next_event`: pop the `(time, id)`-least entry. -/
def popMin (q : List QEntry) : Option (QEntry × List QEntry) :=
  match minEntry q with
  | none => none
  | some m => some (m, q.erase m)

/-- `EventScheduler.schedule`: wrap the event with the next event id
(`next_event_id` pre-increments, so ids start at 1). -/
def scheduleQ (q : List QEntry) (counter : ℕ) (e : Event) (time : ℚ) :
    List QEntry × ℕ :=
  (q ++ [(time, counter + 1, e)], counter + 1)

/-- `EventScheduler.schedule_many` over the `(event, time)` pairs returned
by `process`. -/
def scheduleMany (q : List QEntry) (counter : ℕ) (evs : List (Event × ℚ)) :
    List QEntry × ℕ :=
  evs.foldl (fun acc p => scheduleQ acc.1 acc.2 p.1 p.2) (q, counter)

/-! ## `core/simulation_engine.py` -/

/-- `SimulationStatus`. -/
inductive SimStatus where
  | statusIdle
  | running
  | paused
  | stopped
  | completed
  deriving DecidableEq, Repr

/-- `ScooterGroupSpec`, with the type-to-instance strategy factories
(`_resolve_movement_strategy`, `_resolve_activity_strategy`) collapsed to
the resolved strategy values they construct. -/
structure GroupSpec where
  count : ℕ
  speed : Option ℚ := none
  swap_threshold : Option ℚ := none
  movement_strategy : Option MovStrat := none
  activity_strategy : Option ActStrat := none
  deriving DecidableEq, Repr

/-- `SimulationConfig`. `random_seed` is required: the determinism law is
about engines sharing a seed (an absent seed draws OS entropy, outside the
embedding). -/
structure Config where
  grid_width : ℕ := 100
  grid_height : ℕ := 100
  max_duration_seconds : ℚ := 86400
  meters_per_grid_unit : ℚ := 100
  time_scale : ℚ := 60
  num_stations : ℕ := 5
  slots_per_station : ℕ := 10
  station_charge_rate_kw : ℚ := 1.3
  initial_batteries_per_station : ℕ := 8
  num_scooters : ℕ := 50
  scooter_speed : ℚ := 0.025
  swap_threshold : ℚ := 0.2
  battery_capacity_kwh : ℚ := 1.6
  battery_max_charge_rate_kw : ℚ := 1.3
  consumption_rate_kwh_per_unit : ℚ := 0.005
  random_seed : ℕ := 0
  station_positions : Option (List Position) := none
  movement_strategy : Option MovStrat := none
  station_seeking_behavior : Option SeekStrat := none
  scooter_groups : Option (List GroupSpec) := none

/-- `SimulationEngine` state (`_observers` are omitted: they receive
notifications and may not mutate; `metrics` lives in `world.metrics`,
the same collector object the engine holds). -/
structure Engine where
  config : Config
  world : World
  queue : List QEntry
  rng : Rng
  status : SimStatus
  event_count : ℕ

/-- `_generate_station_positions`: near-square grid, `int(n ** 0.5)`
rendered `Nat.sqrt` (exact for the validated range `n ≤ 50`), Python `//`
on naturals rendered `ℕ` division, row-major, first `n` kept (the
`count >= n` break). -/
def generateStationPositions (cfg : Config) : List Position :=
  let n := cfg.num_stations
  let cols := Nat.sqrt n + 1
  let rows := (n + cols - 1) / cols
  let x_step := cfg.grid_width / (cols + 1)
  let y_step := cfg.grid_height / (rows + 1)
  ((List.range rows).flatMap (fun row =>
    (List.range cols).map (fun col =>
      Position.mk (x_step * (col + 1) : ℕ) (y_step * (row + 1) : ℕ)))).take n

/-- `_initialize_stations`: stations keyed `0, 1, …` at explicit or
generated positions, each with `slots_per_station` fresh slots. -/
def initStations (cfg : Config) (w : World) : World :=
  let positions := cfg.station_positions.getD (generateStationPositions cfg)
  { w with
    stations := (List.range positions.length).map (fun i =>
      (i, { position := positions.getD i ⟨0, 0⟩
            num_slots := cfg.slots_per_station
            charge_rate_kw := cfg.station_charge_rate_kw
            slots := (List.range cfg.slots_per_station).map
              (fun j => ChargingSlot.mk j none false) })) }

/-- `_get_total_scooters`. -/
def totalScooters (cfg : Config) : ℕ :=
  match cfg.scooter_groups with
  | some groups => (groups.map (fun g => g.count)).foldl (· + ·) 0
  | none => cfg.num_scooters

/-- `_initialize_batteries`: per station, `min(initial_batteries_per_station,
num_slots)` full batteries in the lowest slots, ids running on; then one
80%-charged battery per scooter. -/
def initBatteries (cfg : Config) (w : World) : World :=
  let perStation := fun (acc : World × ℕ) (sid : ℕ) =>
    match lookupA acc.1.stations sid with
    | none => acc
    | some station =>
      (List.range (min cfg.initial_batteries_per_station
          station.num_slots)).foldl
        (fun (acc : World × ℕ) slot_idx =>
          let (w, battery_id) := acc
          let battery : Battery :=
            { capacity_kwh := cfg.battery_capacity_kwh
              max_charge_rate_kw := cfg.battery_max_charge_rate_kw
              current_charge_kwh := cfg.battery_capacity_kwh
              location := BatteryLocation.inStation
              station_id := some sid
              slot_index := some slot_idx }
          let w := { w with
            batteries := w.batteries ++ [(battery_id, battery)]
            stations := updateA w.stations sid (fun st =>
              { st with
                slots := modifyAt st.slots slot_idx (fun slot =>
                  { slot with battery_id := some battery_id }) }) }
          (w, battery_id + 1))
        acc
  let (w, battery_id) :=
    (w.stations.map (fun p => p.1)).foldl perStation (w, 0)
  (List.range (totalScooters cfg)).foldl
    (fun (w : World) i =>
      let battery : Battery :=
        { capacity_kwh := cfg.battery_capacity_kwh
          max_charge_rate_kw := cfg.battery_max_charge_rate_kw
          current_charge_kwh := cfg.battery_capacity_kwh * 0.8
          location := BatteryLocation.inScooter
          scooter_id := some i }
      { w with batteries := w.batteries ++ [(battery_id + i, battery)] })
    w

/-- One scooter at an RNG-drawn position (`rng.integers(0, grid_side)`),
shared by the default and group initialisation paths. -/
def drawScooter (cfg : Config) (w : World) (rng : Rng) (scooter_idx : ℕ)
    (battery_idx : ℕ) (speed swap_threshold : ℚ)
    (movement_strategy : Option MovStrat)
    (activity_strategy : Option ActStrat) (group_id : Option ℕ) :
    World × Rng :=
  let (x, rng) := rng.integers 0 cfg.grid_width
  let (y, rng) := rng.integers 0 cfg.grid_height
  let scooter : Scooter :=
    { position := ⟨(x : ℕ), (y : ℕ)⟩
      battery_id := battery_idx + scooter_idx
      state := ScooterState.moving
      speed := speed
      consumption_rate := cfg.consumption_rate_kwh_per_unit
      swap_threshold := swap_threshold
      movement_strategy := movement_strategy
      activity_strategy := activity_strategy
      group_id := group_id }
  ({ w with scooters := w.scooters ++ [(scooter_idx, scooter)] }, rng)

/-- `_initialize_scooters` (default and group paths; the fixed
`battery_idx = len(batteries) - num_scooters` offset). -/
def initScooters (cfg : Config) (w : World) (rng : Rng) : World × Rng :=
  let battery_idx := w.batteries.length - totalScooters cfg
  match cfg.scooter_groups with
  | none =>
    (List.range cfg.num_scooters).foldl
      (fun (acc : World × Rng) i =>
        drawScooter cfg acc.1 acc.2 i battery_idx cfg.scooter_speed
          cfg.swap_threshold none none none)
      (w, rng)
  | some groups =>
    let perGroup := fun (acc : (World × Rng) × ℕ) (gp : ℕ × GroupSpec) =>
      let (wr, scooter_idx) := acc
      let group := gp.2
      let speed := group.speed.getD cfg.scooter_speed
      let swap_threshold := group.swap_threshold.getD cfg.swap_threshold
      let wr := (List.range group.count).foldl
        (fun (wr : World × Rng) i =>
          drawScooter cfg wr.1 wr.2 (scooter_idx + i) battery_idx speed
            swap_threshold group.movement_strategy group.activity_strategy
            (some gp.1))
        wr
      (wr, scooter_idx + group.count)
    (groups.enum.foldl perGroup ((w, rng), 0)).1

/-- `_schedule_initial_events`: one activity-checked move per scooter, a
charging tick per station at `t = 60`, and the first `DailyResetEvent`
(day 1) at the first midnight when inside `max_duration_seconds`. -/
def scheduleInitialEvents (cfg : Config) (w : World) (rng : Rng)
    (counter : ℕ) : World × Rng × List QEntry × ℕ :=
  let perScooter := fun (acc : World × Rng × List QEntry × ℕ) (sid : ℕ) =>
    let (w, rng, q, counter) := acc
    match w.get_scooter sid with
    | none => (w, rng, q, counter)
    | some sc =>
      -- on_scooter_activated is a no-op for both strategies
      let ((e, t), w, rng) := schedule_move_with_activity_check sid sc w rng
      let (q, counter) := scheduleQ q counter e t
      (w, rng, q, counter)
  let (w, rng, q, counter) :=
    (w.scooters.map (fun p => p.1)).foldl perScooter (w, rng, [], counter)
  let (q, counter) :=
    (w.stations.map (fun p => p.1)).foldl
      (fun (acc : List QEntry × ℕ) sid =>
        scheduleQ acc.1 acc.2 (Event.chargingTick sid 60) 60)
      (q, counter)
  let first_midnight := get_next_midnight 0
  let (q, counter) :=
    if first_midnight < cfg.max_duration_seconds then
      scheduleQ q counter (Event.dailyReset 1) first_midnight
    else (q, counter)
  (w, rng, q, counter)

/-- `SimulationEngine.__init__` followed by `initialize()`. `gCounter` is
the incoming value of the process-global `_event_counter`;
`reset_event_counter()` zeroes it before anything is scheduled, which is
why the result does not depend on it. `mkStream` abstracts
`np.random.default_rng`: the generator's output stream as a function of
the seed. Returns the engine and the new global counter. -/
def initEngine (mkStream : ℕ → ℕ → ℕ) (cfg : Config) (_gCounter : ℕ) :
    Engine × ℕ :=
  let w : World :=
    { grid_width := (cfg.grid_width : ℤ)
      grid_height := (cfg.grid_height : ℤ)
      metrics := some {}
      movement_strategy := some (cfg.movement_strategy.getD
        MovStrat.randomWalk)
      station_seeking_behavior := some (cfg.station_seeking_behavior.getD
        SeekStrat.greedy)
      time_scale := cfg.time_scale
      meters_per_grid_unit := cfg.meters_per_grid_unit }
  let rng : Rng := ⟨mkStream cfg.random_seed, 0⟩
  let counter := 0  -- reset_event_counter()
  let w := initStations cfg w
  let w := initBatteries cfg w
  let (w, rng) := initScooters cfg w rng
  let (w, rng, q, counter) := scheduleInitialEvents cfg w rng counter
  (⟨cfg, w, q, rng, SimStatus.statusIdle, 0⟩, counter)

/-- `SimulationEngine.step`, with the global counter threaded. `none`
renders an exception escaping `event.process` (never reached on the
events the engine schedules). Returns the `bool` result, the engine and
the counter. -/
def stepEngine (e : Engine) (counter : ℕ) :
    Option (Bool × Engine × ℕ) :=
  if e.queue.isEmpty then
    some (false, { e with status := SimStatus.completed }, counter)
  else
    match popMin e.queue with
    | none => some (false, e, counter)
    | some ((time, _, event), rest) =>
      if e.config.max_duration_seconds < time then
        some (false,
          { e with queue := rest, status := SimStatus.completed }, counter)
      else
        let w := { e.world with current_time := time }
        match processEvent e.config.max_duration_seconds event w e.rng with
        | Except.error _ => none
        | Except.ok (w, rng, evs) =>
          let (q, counter) := scheduleMany rest counter evs
          let w := { w with
            metrics := w.metrics.map (fun m => m.sample_metrics time) }
          some (true,
            { e with
              world := w, queue := q, rng := rng
              event_count := e.event_count + 1 }, counter)

/-- The tuple of scooter positions, in scooter order. -/
def positionsOf (w : World) : List Position :=
  w.scooters.map (fun p => p.2.position)

/-- The loop of `run_sync`: step while `RUNNING`, recording the scooter
position tuple after each executed step. `fuel` bounds the iteration. -/
def runSteps : ℕ → Engine → ℕ → List (List Position) →
    Option (Engine × ℕ × List (List Position))
  | 0, e, counter, trace => some (e, counter, trace)
  | fuel + 1, e, counter, trace =>
    if e.status = SimStatus.running then
      match stepEngine e counter with
      | none => none
      | some (true, e', counter') =>
        runSteps fuel e' counter' (trace ++ [positionsOf e'.world])
      | some (false, e', counter') => some (e', counter', trace)
    else some (e, counter, trace)

/-- The observable outcome of `run_sync`: the `SimulationResult` fields
the determinism law names, plus the per-step position tuples. -/
structure RunOutput where
  event_count : ℕ
  simulation_time : ℚ
  metrics : Option Metrics
  status : SimStatus
  trace : List (List Position)

/-- `SimulationEngine.run_sync`, threading the global counter. -/
def runSync (fuel : ℕ) (e : Engine) (counter : ℕ) :
    Option (RunOutput × ℕ) :=
  match runSteps fuel { e with status := SimStatus.running } counter [] with
  | none => none
  | some (e', counter', trace) =>
    some (⟨e'.event_count, e'.world.current_time, e'.world.metrics,
      e'.status, trace⟩, counter')

/-! ## Invariants (spec §3, «Cross-entity invariants» and the data model)

The hypothesis `WorldInv` collects the spec's data-model and cross-entity
invariants in decidable form; `chargeBounds`, `backrefsExact`,
`noDupSlotRefs` and `scooterSlotDisjoint` are the conclusions named by the
invariant claim. -/

/-- Charge bounds: `0 ≤ current_charge_kwh ≤ capacity_kwh`. -/
def chargeBounds (w : World) : Prop :=
  ∀ p ∈ w.batteries, 0 ≤ p.2.current_charge_kwh ∧
    p.2.current_charge_kwh ≤ p.2.capacity_kwh

/-- Exactly one back-reference, consistent with `location`: a battery in a
scooter has `scooter_id` set and no station refs; a battery in a station
has `station_id` and `slot_index` set and no `scooter_id`. -/
def backrefOk (b : Battery) : Prop :=
  (b.location = BatteryLocation.inScooter →
    b.scooter_id ≠ none ∧ b.station_id = none ∧ b.slot_index = none) ∧
  (b.location = BatteryLocation.inStation →
    b.scooter_id = none ∧ b.station_id ≠ none ∧ b.slot_index ≠ none)

/-- All batteries carry exactly one consistent back-reference. -/
def backrefsExact (w : World) : Prop :=
  ∀ p ∈ w.batteries, backrefOk p.2

/-- No battery id sits in two distinct station slots. -/
def noDupSlotRefs (w : World) : Prop :=
  ∀ p₁ ∈ w.stations, ∀ p₂ ∈ w.stations, ∀ k₁ k₂ s₁ s₂,
    p₁.2.slots.get? k₁ = some s₁ → p₂.2.slots.get? k₂ = some s₂ →
    ∀ bid, s₁.battery_id = some bid → s₂.battery_id = some bid →
    p₁ = p₂ ∧ k₁ = k₂

/-- No battery id is carried by a scooter and sitting in a slot at once. -/
def scooterSlotDisjoint (w : World) : Prop :=
  ∀ p ∈ w.scooters, ∀ q ∈ w.stations, ∀ k s, q.2.slots.get? k = some s →
    s.battery_id ≠ some p.2.battery_id

/-- The three invariants of the claim, evaluated on a world. -/
def ListedInv (w : World) : Prop :=
  chargeBounds w ∧ backrefsExact w ∧ noDupSlotRefs w ∧
    scooterSlotDisjoint w

/-- Spec §3 invariant 1, decidably: the battery a scooter references
exists, is `IN_SCOOTER` and points back at the scooter. -/
def scooterBatteryOkB (w : World) (p : ℕ × Scooter) : Bool :=
  match lookupA w.batteries p.2.battery_id with
  | some b =>
    b.location = BatteryLocation.inScooter && b.scooter_id = some p.1
  | none => false

/-- Spec §3 invariant 2, decidably: the battery in slot `q.1` of station
`stid` exists, is `IN_STATION` and points back at the slot. -/
def slotBatteryOkB (w : World) (stid : ℕ) (q : ℕ × ChargingSlot) : Bool :=
  match q.2.battery_id with
  | none => true
  | some bid =>
    match lookupA w.batteries bid with
    | some b =>
      b.location = BatteryLocation.inStation && b.station_id = some stid &&
        b.slot_index = some q.1
    | none => false

/-- The hypothesis world invariant: spec §3 cross-entity invariants 1–3
plus the data-model positivity facts (`capacity_kwh > 0`,
`charge_rate_kw > 0`, `consumption_rate > 0`) and key uniqueness of the
Python dicts. -/
def WorldInv (w : World) : Prop :=
  chargeBounds w ∧ backrefsExact w ∧
  (∀ p ∈ w.batteries, 0 < p.2.capacity_kwh) ∧
  (∀ p ∈ w.stations, 0 < p.2.charge_rate_kw) ∧
  (∀ p ∈ w.scooters, 0 < p.2.consumption_rate) ∧
  (∀ p ∈ w.scooters, scooterBatteryOkB w p = true) ∧
  (∀ p ∈ w.stations, ∀ q ∈ p.2.slots.enum, slotBatteryOkB w p.1 q = true) ∧
  (w.batteries.map Prod.fst).Nodup ∧
  (w.stations.map Prod.fst).Nodup ∧
  (w.scooters.map Prod.fst).Nodup

/-- Events as the program constructs them: every
`BatteryChargingTickEvent` is built with the default (or re-armed)
non-negative `tick_interval` of 60 seconds. -/
def EventWF : Event → Prop
  | Event.chargingTick _ interval => 0 ≤ interval
  | _ => True

/-- The world an event processing run leaves behind, whether it returned
normally or raised. -/
def outWorld (r : Except World (World × Rng × List (Event × ℚ))) : World :=
  match r with
  | Except.ok (w, _, _) => w
  | Except.error w => w

/-- Events whose referenced entity ids are missing from the world, per
the guards at the top of each `process` implementation. -/
def refsMissing (e : Event) (w : World) : Prop :=
  match e with
  | Event.scooterMove sid _ =>
    w.get_scooter sid = none ∨
      ∃ sc, w.get_scooter sid = some sc ∧ w.get_battery sc.battery_id = none
  | Event.scooterArrive sid stid =>
    w.get_scooter sid = none ∨ stid.bind w.get_station = none
  | Event.batterySwap sid stid _ _ =>
    w.get_scooter sid = none ∨ w.get_station stid = none
  | Event.chargingTick stid _ => w.get_station stid = none
  | Event.fullyCharged bid stid _ =>
    w.get_battery bid = none ∨ w.get_station stid = none
  | Event.goIdle sid _ => w.get_scooter sid = none
  | Event.wakeUp sid => w.get_scooter sid = none
  | Event.swapThenIdle sid _ => w.get_scooter sid = none
  | Event.dailyReset _ => False

/-! ## Concrete inputs for witnesses and counterexamples -/

/-- A fixed RNG (any stream works: the properties below are about single
processing steps that either ignore it or record how it advanced). -/
def rng0 : Rng := ⟨fun _ => 0, 0⟩

/-- C5: one `NO_BATTERY` miss recorded on a fresh collector. -/
def c5m : Metrics := Metrics.record_no_battery_miss {} 5 1 2

/-- C5 witness input: one swap recorded on a fresh collector. -/
def c5mw : Metrics := Metrics.record_swap {} 40 1 2 0.5 1

/-- C7: a scooter already standing on its target station cell. -/
def c7sc : Scooter :=
  { position := ⟨3, 4⟩
    battery_id := 0
    state := ScooterState.travelingToStation
    speed := 1
    consumption_rate := 1
    swap_threshold := 0.2
    target_station_id := some 0
    target_position := some ⟨3, 4⟩ }

/-- C7: a world holding `c7sc`, with the default strategies the engine
installs. -/
def c7w : World :=
  { current_time := 100
    scooters := [(0, c7sc)]
    movement_strategy := some MovStrat.randomWalk
    station_seeking_behavior := some SeekStrat.greedy }

/-- C7 witness: a free-roaming scooter on a 1×1 grid (no neighbours, so
`RandomWalkStrategy` returns the current position). -/
def c7scFree : Scooter :=
  { position := ⟨0, 0⟩
    battery_id := 0
    state := ScooterState.moving
    speed := 1
    consumption_rate := 1
    swap_threshold := 0.2 }

/-- C7 witness world: the 1×1 grid. -/
def c7wFree : World :=
  { current_time := 7
    grid_width := 1
    grid_height := 1
    scooters := [(0, c7scFree)]
    movement_strategy := some MovStrat.randomWalk
    station_seeking_behavior := some SeekStrat.greedy }

/-- Whether some slot of `st` is charging battery `bid`. -/
def chargingIn (st : Station) (bid : ℕ) : Bool :=
  st.slots.any (fun slot => slot.battery_id = some bid && slot.is_charging)

/-- C3: the battery that finishes charging, in slot 0 of station 0. -/
def c3b : Battery :=
  { capacity_kwh := 1
    max_charge_rate_kw := 1
    current_charge_kwh := 0.5
    location := BatteryLocation.inStation
    station_id := some 0
    slot_index := some 0 }

/-- C3: a single-slot station — full, so no empty deposit slot exists. -/
def c3st : Station :=
  { position := ⟨0, 0⟩
    num_slots := 1
    charge_rate_kw := 1
    slots := [⟨0, some 0, true⟩] }

/-- C3: a scooter waiting for a battery at station 0. -/
def c3sc : Scooter :=
  { position := ⟨0, 0⟩
    battery_id := 1
    state := ScooterState.waitingForBattery
    speed := 1
    consumption_rate := 1
    swap_threshold := 0.2
    target_station_id := some 0 }

/-- C3: the world around them. -/
def c3w : World :=
  { current_time := 500
    batteries := [(0, c3b)]
    stations := [(0, c3st)]
    scooters := [(0, c3sc)] }

/-- C3 witness: a two-slot station, slot 0 charging battery 0 and slot 1
empty. -/
def c3wst : Station :=
  { position := ⟨0, 0⟩
    num_slots := 2
    charge_rate_kw := 1
    slots := [⟨0, some 0, true⟩, ⟨1, none, false⟩] }

/-- C3 witness: a second waiting scooter with a larger id. -/
def c3sc1 : Scooter :=
  { position := ⟨1, 1⟩
    battery_id := 2
    state := ScooterState.waitingForBattery
    speed := 1
    consumption_rate := 1
    swap_threshold := 0.2
    target_station_id := some 0 }

/-- C3 witness: two waiting scooters (ids 0 < 1), so the smallest id must
win the freshly charged battery. -/
def c3ww : World :=
  { current_time := 500
    batteries := [(0, c3b)]
    stations := [(0, c3wst)]
    scooters := [(0, c3sc), (1, c3sc1)] }

/-- C4: a half-full battery sitting in the single charging slot. -/
def c4b : Battery :=
  { capacity_kwh := 1
    max_charge_rate_kw := 1
    current_charge_kwh := 0.5
    location := BatteryLocation.inStation
    station_id := some 0
    slot_index := some 0 }

/-- C4: a 36 kW station (one 60 s tick adds 0.6 kWh). -/
def c4st : Station :=
  { position := ⟨0, 0⟩
    num_slots := 1
    charge_rate_kw := 36
    slots := [⟨0, some 0, true⟩] }

/-- C4: the world around them. -/
def c4w : World :=
  { current_time := 0
    batteries := [(0, c4b)]
    stations := [(0, c4st)] }

/-- C6: a midnight-wrapped schedule, 22:00 → 06:00. -/
def c6strat : ActStrat := ActStrat.scheduled 22 6 none 0.3 100 60

/-- C6: a scooter on the wrapped schedule. -/
def c6sc : Scooter :=
  { position := ⟨0, 0⟩
    battery_id := 0
    state := ScooterState.moving
    speed := 1
    consumption_rate := 1
    swap_threshold := 0.2
    activity_strategy := some c6strat }

/-- C6: its half-charged battery (level 0.5, above the 0.3 threshold). -/
def c6b : Battery :=
  { capacity_kwh := 1
    max_charge_rate_kw := 1
    current_charge_kwh := 0.5
    location := BatteryLocation.inScooter
    scooter_id := some 0 }

/-- C6: the world at simulated time 36 000 s (hour 10, outside the
wrapped window). -/
def c6w : World :=
  { current_time := 36000
    batteries := [(0, c6b)]
    scooters := [(0, c6sc)] }

/-- C6 witness: the same scooter on the plain 8:00 → 20:00 schedule. -/
def c6wstrat : ActStrat := ActStrat.scheduled 8 20 none 0.3 100 60

/-- C6 witness: world at simulated midnight (hour 0, before opening). -/
def c6ww : World :=
  { current_time := 0
    batteries := [(0, c6b)]
    scooters := [(0, c6sc)] }

/-- C10: an engine whose only pending event lies beyond
`max_duration_seconds`. -/
def c10e : Engine :=
  { config := { max_duration_seconds := 50, random_seed := 0 }
    world := {}
    queue := [(60, 1, Event.goIdle 0 70)]
    rng := rng0
    status := SimStatus.statusIdle
    event_count := 0 }

/-- C2: the full battery waiting in the take slot. -/
def c2new : Battery :=
  { capacity_kwh := 1
    max_charge_rate_kw := 1
    current_charge_kwh := 1
    location := BatteryLocation.inStation
    station_id := some 0
    slot_index := some 0 }

/-- C2: the depleted battery carried by the scooter. -/
def c2old : Battery :=
  { capacity_kwh := 1
    max_charge_rate_kw := 1
    current_charge_kwh := 0.25
    location := BatteryLocation.inScooter
    scooter_id := some 0 }

/-- C2: the scooter mid-swap at station 0. -/
def c2sc : Scooter :=
  { position := ⟨2, 2⟩
    battery_id := 1
    state := ScooterState.swapping
    speed := 1
    consumption_rate := 0.005
    swap_threshold := 0.2
    target_station_id := some 0
    target_position := some ⟨2, 2⟩ }

/-- C2: the station with the take slot 0 and the empty deposit slot 1. -/
def c2st : Station :=
  { position := ⟨2, 2⟩
    num_slots := 2
    charge_rate_kw := 1
    slots := [⟨0, some 0, false⟩, ⟨1, none, false⟩] }

/-- C2: the world around them. -/
def c2w : World :=
  { current_time := 100
    batteries := [(0, c2new), (1, c2old)]
    stations := [(0, c2st)]
    scooters := [(0, c2sc)]
    movement_strategy := some MovStrat.randomWalk
    station_seeking_behavior := some SeekStrat.greedy }

/-- C8: the new battery waiting in the take slot of the single-slot
station. -/
def c8new : Battery :=
  { capacity_kwh := 1
    max_charge_rate_kw := 1
    current_charge_kwh := 1
    location := BatteryLocation.inStation
    station_id := some 0
    slot_index := some 0 }

/-- C8: the old battery carried by the scooter. -/
def c8old : Battery :=
  { capacity_kwh := 1
    max_charge_rate_kw := 1
    current_charge_kwh := 0.25
    location := BatteryLocation.inScooter
    scooter_id := some 0 }

/-- C8: the scooter mid-swap whose swap event carries an out-of-range
deposit slot index. -/
def c8sc : Scooter :=
  { position := ⟨0, 0⟩
    battery_id := 1
    state := ScooterState.swapping
    speed := 1
    consumption_rate := 1
    swap_threshold := 0.2
    target_station_id := some 0 }

/-- C8: a single-slot station; slot 0 holds the new battery, index 5 is
out of range. -/
def c8st : Station :=
  { position := ⟨0, 0⟩
    num_slots := 1
    charge_rate_kw := 1
    slots := [⟨0, some 0, false⟩] }

/-- C8: the world around them. -/
def c8w : World :=
  { current_time := 0
    batteries := [(0, c8new), (1, c8old)]
    stations := [(0, c8st)]
    scooters := [(0, c8sc)] }


/-! # Theorems -/

/-- **C5** is false as stated: with no swaps and one recorded miss the
code returns a miss rate of `0`, not `total_misses / max(1, total_swaps)
= 1` (`MetricsCollector.current_miss_rate` short-circuits
`total_swaps == 0` to `0.0`). -/
theorem C5_counterexample :
    c5m.total_swaps = 0 ∧ c5m.total_misses = 1 ∧
    Metrics.current_miss_rate c5m = 0 ∧ specMissRate c5m = 1 := by
  refine ⟨rfl, rfl, ?_, ?_⟩ <;>
    norm_num [Metrics.current_miss_rate, specMissRate, Metrics.total_swaps,
      Metrics.total_misses, c5m, Metrics.record_no_battery_miss]

/-- **C5** (amended): `current_miss_rate` is `0` when `total_swaps = 0`
— even with misses recorded — and `total_misses / total_swaps` otherwise,
where it agrees with the spec's `total_misses / max(1, total_swaps)`. -/
theorem C5_current_miss_rate (m : Metrics) :
    (m.total_swaps = 0 → m.current_miss_rate = 0) ∧
    (m.total_swaps ≠ 0 →
      m.current_miss_rate = (m.total_misses : ℚ) / (m.total_swaps : ℚ) ∧
        m.current_miss_rate = specMissRate m) := by
  refine ⟨fun h => ?_, fun h => ⟨?_, ?_⟩⟩
  · simp [Metrics.current_miss_rate, h]
  · simp [Metrics.current_miss_rate, h]
  · simp [Metrics.current_miss_rate, specMissRate, h,
      Nat.max_eq_right (Nat.one_le_iff_ne_zero.2 h)]

/-- **C5** witness: after one recorded swap the rate agrees with the spec
formula. -/
theorem C5_current_miss_rate_witness :
    c5mw.total_swaps ≠ 0 ∧
    (Metrics.current_miss_rate c5mw =
        (c5mw.total_misses : ℚ) / (c5mw.total_swaps : ℚ) ∧
      Metrics.current_miss_rate c5mw = specMissRate c5mw) :=
  have h : c5mw.total_swaps ≠ 0 := by
    norm_num [c5mw, Metrics.record_swap, Metrics.total_swaps,
      Metrics.record_low_charge_miss, lookupA]
  ⟨h, (C5_current_miss_rate c5mw).2 h⟩

/-- **C7** is false as stated: a degenerate zero-distance station-seeking
step (`c7sc` already stands on its target) is scheduled by
`schedule_move_toward_station` at `current_time + 0.0`, not
`current_time + 0.1`. -/
theorem C7_counterexample :
    SeekStrat.greedy.get_next_step_toward_station c7sc = c7sc.position ∧
    (schedule_move_toward_station 0 c7sc c7w rng0).1.2 =
      c7w.current_time ∧
    (schedule_move_toward_station 0 c7sc c7w rng0).1.2 ≠
      c7w.current_time + 0.1 := by
  refine ⟨rfl, ?_, ?_⟩ <;>
    norm_num [schedule_move_toward_station, c7sc, c7w,
      SeekStrat.get_next_step_toward_station, greedyStep,
      Position.distance_to, Scooter.travel_time]

/-- **C7** (amended): a degenerate zero-distance move is scheduled at
`current_time + 0.1` by free-roam scheduling (`schedule_move`), but at
`current_time + 0.0` by station-seeking scheduling
(`schedule_move_toward_station`) when a target is set. -/
theorem C7_degenerate_move_schedule (sid : ℕ) (sc : Scooter) (w : World)
    (rng : Rng) :
    (((w.movement_strategy.getD MovStrat.randomWalk).get_next_destination
        sid sc w rng).1 = sc.position →
      (schedule_move sid sc w rng).1.2 = w.current_time + 0.1) ∧
    (∀ tp, sc.target_position = some tp →
      (w.station_seeking_behavior.getD
          SeekStrat.greedy).get_next_step_toward_station sc = sc.position →
      (schedule_move_toward_station sid sc w rng).1.2 = w.current_time) := by
  constructor
  · intro h
    rcases hg : (w.movement_strategy.getD
        MovStrat.randomWalk).get_next_destination sid sc w rng with
      ⟨np, st2, rng2⟩
    have hnp : np = sc.position := by rw [hg] at h; exact h
    subst hnp
    simp only [schedule_move]
    rw [hg]
    simp [Position.distance_to, sub_self]
  · intro tp htp h
    simp only [schedule_move_toward_station]
    rw [htp]
    simp only [h]
    simp [Position.distance_to, sub_self]

/-- **C7** witness: the degenerate free-roam move on a 1×1 grid is at
`+0.1`; the degenerate station-seeking step of `c7sc` is at `+0.0`. -/
theorem C7_degenerate_move_schedule_witness :
    ((c7wFree.movement_strategy.getD MovStrat.randomWalk).get_next_destination
        0 c7scFree c7wFree rng0).1 = c7scFree.position ∧
    (schedule_move 0 c7scFree c7wFree rng0).1.2 =
      c7wFree.current_time + 0.1 ∧
    c7sc.target_position = some ⟨3, 4⟩ ∧
    (schedule_move_toward_station 0 c7sc c7w rng0).1.2 = c7w.current_time :=
  ⟨rfl,
   (C7_degenerate_move_schedule 0 c7scFree c7wFree rng0).1 rfl,
   rfl,
   (C7_degenerate_move_schedule 0 c7sc c7w rng0).2 ⟨3, 4⟩ rfl rfl⟩

/-- **C9**: engines initialised from the same configuration (including
the seed, which fixes the RNG stream `mkStream cfg.random_seed`) produce
identical `run_sync` outcomes — event count, simulation time, metrics and
the per-step scooter position tuples — independently of the incoming
value of the process-global event counter, which `initialize()` resets. -/
theorem C9_run_sync_deterministic (mkStream : ℕ → ℕ → ℕ) (cfg : Config)
    (fuel g g' : ℕ) :
    runSync fuel (initEngine mkStream cfg g).1 (initEngine mkStream cfg g).2
      = runSync fuel (initEngine mkStream cfg g').1
          (initEngine mkStream cfg g').2 := rfl

/-- The minimum scan only ever returns the accumulator or a scanned
element. -/
theorem foldl_minStep_mem :
    ∀ (q : List QEntry) (acc : Option QEntry) (m : QEntry),
      q.foldl minStep acc = some m → acc = some m ∨ m ∈ q := by
  intro q
  induction q with
  | nil => intro acc m h; exact Or.inl h
  | cons a q ih =>
    intro acc m h
    rw [List.foldl_cons] at h
    rcases ih _ m h with h' | h'
    · match acc with
      | none =>
        simp only [minStep, Option.some.injEq] at h'
        exact Or.inr (h' ▸ List.mem_cons_self a q)
      | some mm =>
        by_cases hlt : entryLT a mm
        · simp only [minStep, hlt, if_true, Option.some.injEq] at h'
          exact Or.inr (h' ▸ List.mem_cons_self a q)
        · simp only [minStep, hlt, if_false] at h'
          exact Or.inl h'
    · exact Or.inr (List.mem_cons_of_mem _ h')

/-- The minimum entry is in the queue. -/
theorem minEntry_mem {q : List QEntry} {m : QEntry}
    (h : minEntry q = some m) : m ∈ q := by
  rcases foldl_minStep_mem q none m h with h' | h'
  · exact absurd h' (by simp)
  · exact h'

/-- **C10**: with the earliest pending entry strictly beyond
`max_duration_seconds`, `step()` pops and discards it, transitions to
`COMPLETED` and returns `false`; the queue shrinks by one while the world
(its clock, entities and metrics) and the event count stay untouched. -/
theorem C10_step_discards_late_event (e : Engine) (counter : ℕ)
    (entry : QEntry) (rest : List QEntry)
    (hpop : popMin e.queue = some (entry, rest))
    (hlate : e.config.max_duration_seconds < entry.1) :
    stepEngine e counter =
      some (false, { e with queue := rest, status := SimStatus.completed },
        counter) ∧
    rest.length + 1 = e.queue.length ∧
    ({ e with queue := rest, status := SimStatus.completed } : Engine).world
      = e.world ∧
    ({ e with queue := rest, status := SimStatus.completed } :
        Engine).event_count = e.event_count := by
  have hmin : minEntry e.queue = some entry ∧ rest = e.queue.erase entry := by
    unfold popMin at hpop
    cases hm : minEntry e.queue with
    | none => rw [hm] at hpop; exact absurd hpop (by simp)
    | some m =>
      rw [hm] at hpop
      simp only [Option.some.injEq, Prod.mk.injEq] at hpop
      obtain ⟨h1, h2⟩ := hpop
      subst h1
      exact ⟨rfl, h2.symm⟩
  have hmem : entry ∈ e.queue := minEntry_mem hmin.1
  have hne : e.queue.isEmpty = false := by
    cases hq : e.queue with
    | nil => rw [hq] at hmem; exact absurd hmem (List.not_mem_nil _)
    | cons a l => rfl
  refine ⟨?_, ?_, rfl, rfl⟩
  · rcases entry with ⟨time, eid, ev⟩
    unfold stepEngine
    rw [hne]
    simp only [Bool.false_eq_true, if_false]
    rw [hpop]
    simp only [hlate, if_true]
  · have hlen := List.length_erase_of_mem hmem
    have hpos : 0 < e.queue.length := List.length_pos.mpr (by
      intro hq; rw [hq] at hmem; exact List.not_mem_nil _ hmem)
    rw [hmin.2, hlen]
    omega

/-- **C10** witness: the concrete engine `c10e` (one event at `t = 60`,
horizon 50) discards it and completes. -/
theorem C10_step_discards_late_event_witness :
    stepEngine c10e 3 =
      some (false, { c10e with queue := [], status := SimStatus.completed },
        3) ∧
    List.length ([] : List QEntry) + 1 = c10e.queue.length ∧
    ({ c10e with queue := [], status := SimStatus.completed } : Engine).world
      = c10e.world ∧
    ({ c10e with queue := [], status := SimStatus.completed } :
        Engine).event_count = c10e.event_count := by
  have hpop : popMin c10e.queue = some ((60, 1, Event.goIdle 0 70), []) := rfl
  have hlate : c10e.config.max_duration_seconds < (60 : ℚ) := by
    norm_num [c10e]
  exact C10_step_discards_late_event c10e 3 (60, 1, Event.goIdle 0 70) []
    hpop hlate

/-! ### Hour-of-day arithmetic (for C6) -/

/-- The hour of day is non-negative. -/
theorem hmod24_nonneg (a : ℚ) : 0 ≤ hmod a 24 := by
  unfold hmod
  have h1 := Int.floor_le (a / 24)
  rw [le_div_iff₀ (by norm_num : (0:ℚ) < 24)] at h1
  linarith

/-- The hour of day is below 24. -/
theorem hmod24_lt (a : ℚ) : hmod a 24 < 24 := by
  unfold hmod
  have h1 := Int.lt_floor_add_one (a / 24)
  rw [div_lt_iff₀ (by norm_num : (0:ℚ) < 24)] at h1
  linarith

/-- Every simulated time splits into whole days plus its hour of day. -/
theorem hour_day_decomp (t : ℚ) :
    t = (24 * (⌊t / 3600 / 24⌋ : ℚ) + get_hour_of_day t) * 3600 := by
  unfold get_hour_of_day hmod
  have h3600 : (3600 : ℚ) ≠ 0 := by norm_num
  field_simp
  ring

/-- The times whose hour of day is `s ∈ [0, 24)` are exactly the
`(24 m + s) · 3600` for whole `m`. -/
theorem get_hour_of_day_eq_iff (s t' : ℚ) (hs0 : 0 ≤ s) (hs24 : s < 24) :
    get_hour_of_day t' = s ↔ ∃ m : ℤ, t' = (24 * m + s) * 3600 := by
  constructor
  · intro h
    exact ⟨⌊t' / 3600 / 24⌋, by rw [← h]; exact hour_day_decomp t'⟩
  · rintro ⟨m, rfl⟩
    unfold get_hour_of_day hmod
    have hdiv : ((24 * (m:ℚ) + s) * 3600 : ℚ) / 3600 = 24 * m + s := by
      field_simp
    rw [hdiv]
    have hin : (24 * (m:ℚ) + s) / 24 = (m:ℚ) + s / 24 := by
      field_simp; ring
    have hfl0 : ⌊s / 24⌋ = 0 := by
      rw [Int.floor_eq_zero_iff]
      constructor
      · positivity
      · rw [div_lt_one (by norm_num : (0:ℚ) < 24)]; exact hs24
    have hfl : ⌊(24 * (m:ℚ) + s) / 24⌋ = m := by
      rw [hin, add_comm, Int.floor_add_int, hfl0, zero_add]
    rw [hfl]
    ring

/-- For a non-wrapped window (`start < end`, `start ∈ [0, 24)`), the
`outside_hours` wake-up time of `_calculate_wake_up_time` is the earliest
time at or after `t` whose hour of day is the start hour. -/
theorem wake_up_earliest (s e t : ℚ) (hs0 : 0 ≤ s) (hs24 : s < 24)
    (hse : s < e)
    (hout : isWithinActiveHours s e (get_hour_of_day t) = false) :
    t ≤ calcWakeUpTime s e t WakeReason.outsideHours ∧
    get_hour_of_day (calcWakeUpTime s e t WakeReason.outsideHours) = s ∧
    ∀ t', t ≤ t' → t' < calcWakeUpTime s e t WakeReason.outsideHours →
      get_hour_of_day t' ≠ s := by
  have hh0 : 0 ≤ get_hour_of_day t := hmod24_nonneg _
  have hh24 : get_hour_of_day t < 24 := hmod24_lt _
  have hdec := hour_day_decomp t
  set h := get_hour_of_day t with hhdef
  set k := ⌊t / 3600 / 24⌋ with hkdef
  have hcases : h < s ∨ e ≤ h := by
    unfold isWithinActiveHours at hout
    rw [if_pos hse.le] at hout
    simp only [Bool.and_eq_false_iff, decide_eq_false_iff_not, not_le,
      not_lt] at hout
    rcases hout with h' | h'
    · left; exact h'
    · right; exact h'
  unfold calcWakeUpTime
  simp only [← hhdef]
  rcases hcases with hcase | hcase
  · -- before the start hour: wake later today
    have hnotend : ¬ (e ≤ h) := by linarith
    rw [if_neg hnotend]
    refine ⟨by nlinarith, ?_, ?_⟩
    · rw [get_hour_of_day_eq_iff s _ hs0 hs24]
      exact ⟨k, by linarith [hdec]⟩
    · intro t' ht1 ht2 hhour
      rw [get_hour_of_day_eq_iff s _ hs0 hs24] at hhour
      obtain ⟨m, rfl⟩ := hhour
      have hwu : t + (s - h) * 3600 = (24 * (k:ℚ) + s) * 3600 := by
        linarith [hdec]
      rw [hwu] at ht2
      have hmk : (m:ℚ) < k := by nlinarith
      have hik : m < k := by exact_mod_cast hmk
      have hmk' : (m:ℚ) + 1 ≤ k := by exact_mod_cast hik
      nlinarith [hdec]
  · -- at or past the end hour: wake tomorrow at the start hour
    rw [if_pos hcase]
    refine ⟨by nlinarith, ?_, ?_⟩
    · rw [get_hour_of_day_eq_iff s _ hs0 hs24]
      exact ⟨k + 1, by push_cast; linarith [hdec]⟩
    · intro t' ht1 ht2 hhour
      rw [get_hour_of_day_eq_iff s _ hs0 hs24] at hhour
      obtain ⟨m, rfl⟩ := hhour
      have hwu : t + ((24 - h) + s) * 3600 = (24 * ((k:ℚ) + 1) + s) * 3600 := by
        linarith [hdec]
      rw [hwu] at ht2
      have hmk : (m:ℚ) < (k:ℚ) + 1 := by nlinarith
      have hik : m < k + 1 := by exact_mod_cast hmk
      have hmk' : (m:ℚ) ≤ k := by
        have hmk2 : m ≤ k := by omega
        exact_mod_cast hmk2
      nlinarith [hdec]

/-- `36000 s` is hour 10. -/
theorem hour_of_36000 : get_hour_of_day (36000 : ℚ) = 10 := by
  unfold get_hour_of_day hmod
  have h1 : (36000 : ℚ) / 3600 = 10 := by norm_num
  rw [h1]
  have h2 : ⌊(10 : ℚ) / 24⌋ = 0 := by
    rw [Int.floor_eq_zero_iff]
    constructor <;> norm_num
  rw [h2]
  norm_num

/-- `79200 s` is hour 22. -/
theorem hour_of_79200 : get_hour_of_day (79200 : ℚ) = 22 := by
  unfold get_hour_of_day hmod
  have h1 : (79200 : ℚ) / 3600 = 22 := by norm_num
  rw [h1]
  have h2 : ⌊(22 : ℚ) / 24⌋ = 0 := by
    rw [Int.floor_eq_zero_iff]
    constructor <;> norm_num
  rw [h2]
  norm_num

/-- **C6** is false as stated: on the midnight-wrapped schedule
`[22, 6)` at `t = 36000` (hour 10, outside the window, battery above the
threshold) `check_activity` returns `GO_IDLE` with
`wake_up_time = 165600`, although `79200` already lies at or after `t`
with hour of day equal to the start hour 22 — the earliest start
boundary is missed by a full day. -/
theorem C6_counterexample :
    isWithinActiveHours 22 6 (get_hour_of_day c6w.current_time) = false ∧
    (0.3 : ℚ) ≤ c6b.charge_level ∧
    (c6strat.check_activity c6sc c6w).decision = ActDecision.goIdle ∧
    (c6strat.check_activity c6sc c6w).wake_up_time = some 165600 ∧
    c6w.current_time ≤ 79200 ∧ (79200 : ℚ) < 165600 ∧
    get_hour_of_day (79200 : ℚ) = 22 := by
  have htime : c6w.current_time = (36000 : ℚ) := rfl
  have hout : isWithinActiveHours 22 6
      (get_hour_of_day c6w.current_time) = false := by
    rw [htime, hour_of_36000]
    norm_num [isWithinActiveHours]
  have hbat : c6w.get_battery c6sc.battery_id = some c6b := rfl
  have hcheck : (c6strat.check_activity c6sc c6w).decision =
      ActDecision.goIdle ∧
      (c6strat.check_activity c6sc c6w).wake_up_time = some 165600 := by
    simp only [c6strat, ActStrat.check_activity]
    rw [htime] at hout ⊢
    simp only [hout, Bool.false_eq_true, not_false_eq_true, if_true, hbat]
    have hlev : ¬ (c6b.charge_level < (0.3 : ℚ)) := by
      norm_num [Battery.charge_level, c6b]
    simp only [hlev, if_false]
    have hwake : calcWakeUpTime 22 6 36000 WakeReason.outsideHours
        = 165600 := by
      unfold calcWakeUpTime
      rw [hour_of_36000]
      norm_num
    rw [hwake]
    exact ⟨trivial, rfl⟩
  refine ⟨hout, ?_, hcheck.1, hcheck.2, ?_, ?_, hour_of_79200⟩
  · norm_num [Battery.charge_level, c6b]
  · rw [htime]; norm_num
  · norm_num

/-- **C6** (amended): the active window is exactly `[start, end)` when
`start ≤ end` and the midnight-wrapped set otherwise; outside the window
with battery level at or above the threshold, `check_activity` returns
`GO_IDLE` with `wake_up_time = current_time + ((24 − hour) + start)·3600`
when `hour ≥ end_hour`, else `current_time + (start − hour)·3600` — for a
non-wrapped window (`0 ≤ start < 24`, `start < end`) this is the earliest
time at or after `current_time` whose hour of day equals the start hour,
but for wrapped windows the `hour ≥ end` branch can overshoot by a day. -/
theorem C6_scheduled_activity_check (start_h end_h : ℚ) (max_km : Option ℚ)
    (thr mpgu ts : ℚ) (sc : Scooter) (w : World) (battery : Battery)
    (hbat : w.get_battery sc.battery_id = some battery)
    (hlev : thr ≤ battery.charge_level)
    (hout : isWithinActiveHours start_h end_h
      (get_hour_of_day w.current_time) = false) :
    (∀ hh, isWithinActiveHours start_h end_h hh = true ↔
      (if start_h ≤ end_h then start_h ≤ hh ∧ hh < end_h
       else start_h ≤ hh ∨ hh < end_h)) ∧
    ((ActStrat.scheduled start_h end_h max_km thr mpgu ts).check_activity
        sc w).decision = ActDecision.goIdle ∧
    ((ActStrat.scheduled start_h end_h max_km thr mpgu ts).check_activity
        sc w).wake_up_time =
      some (calcWakeUpTime start_h end_h w.current_time
        WakeReason.outsideHours) ∧
    calcWakeUpTime start_h end_h w.current_time WakeReason.outsideHours =
      (if end_h ≤ get_hour_of_day w.current_time then
        w.current_time +
          ((24 - get_hour_of_day w.current_time) + start_h) * 3600
       else w.current_time +
          (start_h - get_hour_of_day w.current_time) * 3600) ∧
    (0 ≤ start_h → start_h < 24 → start_h < end_h →
      w.current_time ≤ calcWakeUpTime start_h end_h w.current_time
          WakeReason.outsideHours ∧
      get_hour_of_day (calcWakeUpTime start_h end_h w.current_time
          WakeReason.outsideHours) = start_h ∧
      ∀ t', w.current_time ≤ t' →
        t' < calcWakeUpTime start_h end_h w.current_time
          WakeReason.outsideHours →
        get_hour_of_day t' ≠ start_h) := by
  refine ⟨?_, ?_⟩
  · intro hh
    unfold isWithinActiveHours
    by_cases hse : start_h ≤ end_h
    · simp [hse, Bool.and_eq_true, decide_eq_true_iff]
    · simp [hse, Bool.or_eq_true, decide_eq_true_iff, ge_iff_le]
  · have hnl : ¬ (battery.charge_level < thr) := not_lt.mpr hlev
    simp only [ActStrat.check_activity]
    simp only [hout, Bool.false_eq_true, not_false_eq_true, if_true, hbat,
      hnl, if_false]
    refine ⟨trivial, trivial, ?_, ?_⟩
    · unfold calcWakeUpTime
      by_cases hc : end_h ≤ get_hour_of_day w.current_time
      · simp only [if_pos hc]
      · simp only [if_neg hc]
    · intro h1 h2 h3
      exact wake_up_earliest start_h end_h w.current_time h1 h2 h3 hout

/-- **C6** witness: the plain `[8, 20)` schedule at midnight — outside
the window, battery at 50 % — wakes at the earliest 8:00 boundary. -/
theorem C6_scheduled_activity_check_witness :
    (c6ww.get_battery c6sc.battery_id = some c6b ∧
     (0.3 : ℚ) ≤ c6b.charge_level ∧
     isWithinActiveHours 8 20 (get_hour_of_day c6ww.current_time) = false) ∧
    ((ActStrat.scheduled 8 20 none 0.3 100 60).check_activity
        c6sc c6ww).decision = ActDecision.goIdle := by
  have hbat : c6ww.get_battery c6sc.battery_id = some c6b := rfl
  have hlev : (0.3 : ℚ) ≤ c6b.charge_level := by
    norm_num [Battery.charge_level, c6b]
  have hout : isWithinActiveHours 8 20
      (get_hour_of_day c6ww.current_time) = false := by
    have htime : c6ww.current_time = (0 : ℚ) := rfl
    have h0 : get_hour_of_day (0 : ℚ) = 0 := by
      unfold get_hour_of_day hmod
      norm_num
    rw [htime, h0]
    norm_num [isWithinActiveHours]
  exact ⟨⟨hbat, hlev, hout⟩,
    (C6_scheduled_activity_check 8 20 none 0.3 100 60 c6sc c6ww c6b hbat
      hlev hout).2.1⟩


/-! ### Association-list and charging-fold toolkit -/

theorem lookupA_updateA {α : Type} (l : List (ℕ × α)) (k : ℕ) (f : α → α)
    (i : ℕ) :
    lookupA (updateA l k f) i =
      if i = k then (lookupA l i).map f else lookupA l i := by
  induction l with
  | nil => simp [lookupA, updateA]
  | cons p l ih =>
    rcases p with ⟨a, v⟩
    by_cases hak : a = k
    · subst hak
      by_cases hia : i = a
      · subst hia
        simp [lookupA, updateA]
      · simp [lookupA, updateA, hia, Ne.symm hia, ih]
    · by_cases hia : i = a
      · subst hia
        simp [lookupA, updateA, hak]
      · simp [lookupA, updateA, hak, Ne.symm hia, ih]

theorem exists_batteries_chargeFold (st : Station) (iv : ℚ) :
    ∀ (slots : List ChargingSlot) (w : World),
      ∃ bs, slots.foldl (chargeSlotStep st iv) w = { w with batteries := bs }
  | [], w => ⟨w.batteries, rfl⟩
  | slot :: rest, w => by
    rcases exists_batteries_chargeFold st iv rest
        (chargeSlotStep st iv w slot) with ⟨bs, hbs⟩
    refine ⟨bs, ?_⟩
    rw [List.foldl_cons, hbs]
    unfold chargeSlotStep
    rcases slot with ⟨idx, bid?, ch⟩
    match bid? with
    | none => rfl
    | some bid =>
      simp only
      by_cases hch : ch
      · subst hch
        simp only [if_true]
        match lookupA w.batteries bid with
        | none => rfl
        | some b =>
          by_cases hf : b.is_full
          · simp [hf]
          · simp [hf]
      · simp [hch]

theorem any_charging_false_of_not_mem (rest : List ChargingSlot) (bid : ℕ)
    (h : bid ∉ rest.filterMap (fun s => s.battery_id)) :
    rest.any (fun s => s.battery_id = some bid && s.is_charging) = false := by
  rw [List.any_eq_false]
  intro s hs
  intro hcontra
  rw [Bool.and_eq_true, decide_eq_true_iff] at hcontra
  exact h (List.mem_filterMap.mpr ⟨s, hs, hcontra.1⟩)


theorem chargeFold_lookup (st : Station) (iv : ℚ) :
    ∀ (slots : List ChargingSlot) (w : World) (bid : ℕ) (b : Battery),
      (slots.filterMap (fun s => s.battery_id)).Nodup →
      lookupA w.batteries bid = some b →
      lookupA (slots.foldl (chargeSlotStep st iv) w).batteries bid =
        some (if slots.any
            (fun s => s.battery_id = some bid && s.is_charging)
            && ! b.is_full then
          b.add_charge (st.charge_rate_kw * iv / 3600) else b)
  | [], w, bid, b, _, hb => by simpa using hb
  | slot :: rest, w, bid, b, hnd, hb => by
    rw [List.foldl_cons]
    rcases slot with ⟨idx, bid?, ch⟩
    match hbid? : bid? with
    | none =>
      have hstep : chargeSlotStep st iv w ⟨idx, none, ch⟩ = w := rfl
      rw [hstep]
      have hnd' : (rest.filterMap (fun s => s.battery_id)).Nodup := by
        simpa [List.filterMap_cons] using hnd
      rw [chargeFold_lookup st iv rest w bid b hnd' hb]
      simp [List.any_cons]
    | some bid0 =>
      have hnd' : (rest.filterMap (fun s => s.battery_id)).Nodup ∧
          bid0 ∉ rest.filterMap (fun s => s.battery_id) := by
        rw [List.filterMap_cons] at hnd
        simp only at hnd
        rw [List.nodup_cons] at hnd
        exact ⟨hnd.2, hnd.1⟩
      by_cases hch : ch = true
      · subst hch
        -- charging slot
        by_cases hbb : bid = bid0
        · subst hbb
          -- our battery's slot
          have hstep : chargeSlotStep st iv w ⟨idx, some bid, true⟩ =
              (if ! b.is_full then
                { w with
                  batteries :=
                    updateA w.batteries bid (fun _ =>
                      b.add_charge (st.charge_rate_kw * iv / 3600)) }
               else w) := by
            unfold chargeSlotStep
            simp only [hb, if_true]
          rw [hstep]
          by_cases hf : b.is_full
          · simp only [hf, Bool.not_true, Bool.false_eq_true, if_false]
            rw [chargeFold_lookup st iv rest w bid b hnd'.1 hb]
            rw [any_charging_false_of_not_mem rest bid hnd'.2]
            simp [hf]
          · have hf' : (! b.is_full) = true := by simp [hf]
            simp only [hf', if_true]
            have hb' : lookupA (updateA w.batteries bid
                (fun _ => b.add_charge (st.charge_rate_kw * iv / 3600)))
                bid = some (b.add_charge (st.charge_rate_kw * iv / 3600)) := by
              rw [lookupA_updateA]
              simp [hb]
            rw [chargeFold_lookup st iv rest _ bid _ hnd'.1 hb']
            rw [any_charging_false_of_not_mem rest bid hnd'.2]
            simp [hf]
        · -- someone else's slot
          have hne : lookupA
              ((chargeSlotStep st iv w ⟨idx, some bid0, true⟩)).batteries
              bid = some b := by
            unfold chargeSlotStep
            simp only
            match lookupA w.batteries bid0 with
            | none => exact hb
            | some b0 =>
              by_cases hf : b0.is_full
              · simp only [hf, Bool.not_true, Bool.false_eq_true, if_false]
                exact hb
              · simp only [hf, Bool.not_false, if_true]
                rw [lookupA_updateA]
                simp [hbb, hb]
          rw [chargeFold_lookup st iv rest _ bid b hnd'.1 hne]
          have hbb' : ¬ (bid0 = bid) := fun h => hbb h.symm
          simp [List.any_cons, hbb']
      · have hchf : ch = false := by simpa using hch
        subst hchf
        have hstep : chargeSlotStep st iv w ⟨idx, some bid0, false⟩ = w := rfl
        rw [hstep, chargeFold_lookup st iv rest w bid b hnd'.1 hb]
        simp [List.any_cons]


/-- **C4** is false as stated: in the 36 kW station `c4st`, the half-full
battery `c4b` (1 kWh capacity) is not full before the tick, yet one 60 s
tick clamps it to exactly its capacity, so `is_full` — defined as "within
1e-4 of capacity" — becomes true after `BatteryChargingTickEvent`
processing. -/
theorem C4_counterexample :
    c4b.is_full = false ∧
    chargingIn c4st 0 = true ∧
    lookupA (processChargingTick 0 60 86400 c4w rng0).1.batteries 0 =
      some { c4b with current_charge_kwh := 1 } ∧
    ({ c4b with current_charge_kwh := 1 } : Battery).is_full = true := by
  have hfull : c4b.is_full = false := by
    simp only [Battery.is_full, c4b, decide_eq_false_iff_not]
    norm_num
  have hany : (c4st.slots.any
      (fun s => s.battery_id = some 0 && s.is_charging)) = true := by
    simp [c4st]
  refine ⟨hfull, hany, ?_, ?_⟩
  · have hw : (processChargingTick 0 60 86400 c4w rng0).1 =
        c4st.slots.foldl (chargeSlotStep c4st 60) c4w := rfl
    have hnd : (c4st.slots.filterMap (fun s => s.battery_id)).Nodup := by
      simp [c4st]
    have hb : lookupA c4w.batteries 0 = some c4b := rfl
    rw [hw, chargeFold_lookup c4st 60 c4st.slots c4w 0 c4b hnd hb, hany,
      hfull]
    simp only [Bool.not_false, Bool.and_true, if_true]
    have : c4b.add_charge (c4st.charge_rate_kw * 60 / 3600) =
        { c4b with current_charge_kwh := 1 } := by
      simp only [Battery.add_charge, c4st, c4b]
      norm_num
    rw [this]
  · simp only [Battery.is_full, c4b, decide_eq_true_eq]
    norm_num

/-- **C4** (amended): the tick adds
`charge_rate_kw × tick_interval / 3600` kWh, clamped at capacity, to
exactly the batteries sitting in a charging slot and not yet full; it
re-arms itself `tick_interval` seconds later iff that lands strictly
before end-of-run; and it never touches slots, the RNG, the clock, the
metrics or any other battery — but it does not guard `is_full` after the
addition, so a battery that was not full can satisfy `is_full` once the
clamped charge lands within 1e-4 of capacity (see the counterexample). -/
theorem C4_charging_tick (stid : ℕ) (interval maxT : ℚ) (w : World)
    (rng : Rng) (st : Station)
    (hst : w.get_station stid = some st)
    (hnd : (st.slots.filterMap (fun s => s.battery_id)).Nodup) :
    (processChargingTick stid interval maxT w rng).2.1 = rng ∧
    (processChargingTick stid interval maxT w rng).1.stations =
      w.stations ∧
    (processChargingTick stid interval maxT w rng).1.scooters =
      w.scooters ∧
    (processChargingTick stid interval maxT w rng).1.metrics = w.metrics ∧
    (processChargingTick stid interval maxT w rng).1.current_time =
      w.current_time ∧
    (processChargingTick stid interval maxT w rng).2.2 =
      (if w.current_time + interval < maxT then
        [(Event.chargingTick stid interval, w.current_time + interval)]
       else []) ∧
    ∀ bid b, lookupA w.batteries bid = some b →
      lookupA (processChargingTick stid interval maxT w rng).1.batteries
          bid =
        some (if chargingIn st bid && ! b.is_full then
          b.add_charge (st.charge_rate_kw * interval / 3600) else b) := by
  obtain ⟨bs, hbs⟩ := exists_batteries_chargeFold st interval st.slots w
  have hred : processChargingTick stid interval maxT w rng =
      (st.slots.foldl (chargeSlotStep st interval) w, rng,
        if ({ w with batteries := bs } : World).current_time + interval
            < maxT then
          [(Event.chargingTick stid interval,
            ({ w with batteries := bs } : World).current_time + interval)]
        else []) := by
    unfold processChargingTick
    rw [hst]
    simp only [hbs]
  rw [hred]
  refine ⟨rfl, ?_, ?_, ?_, ?_, rfl, ?_⟩
  · rw [hbs]
  · rw [hbs]
  · rw [hbs]
  · rw [hbs]
  · intro bid b hb
    rw [show (st.slots.foldl (chargeSlotStep st interval) w, rng,
        if ({ w with batteries := bs } : World).current_time + interval
            < maxT then
          [(Event.chargingTick stid interval,
            ({ w with batteries := bs } : World).current_time + interval)]
        else []).1 = st.slots.foldl (chargeSlotStep st interval) w from rfl]
    rw [chargeFold_lookup st interval st.slots w bid b hnd hb]
    rfl

/-- **C4** witness: the concrete station `c4st` re-arms its tick at
`t = 60` inside the 86 400 s horizon. -/
theorem C4_charging_tick_witness :
    c4w.get_station 0 = some c4st ∧
    (c4st.slots.filterMap (fun s => s.battery_id)).Nodup ∧
    (processChargingTick 0 60 86400 c4w rng0).2.2 =
      [(Event.chargingTick 0 60, c4w.current_time + 60)] := by
  have hst : c4w.get_station 0 = some c4st := rfl
  have hnd : (c4st.slots.filterMap (fun s => s.battery_id)).Nodup := by
    simp [c4st]
  refine ⟨hst, hnd, ?_⟩
  have h := (C4_charging_tick 0 60 86400 c4w rng0 c4st hst hnd).2.2.2.2.2.1
  rw [h, if_pos]
  norm_num [c4w]




/-! ### C3: BatteryFullyChargedEvent -/

theorem get?_modifyAt {α : Type} :
    ∀ (l : List α) (i : ℕ) (f : α → α) (j : ℕ),
      (modifyAt l i f).get? j =
        if j = i then (l.get? i).map f else l.get? j
  | [], i, f, j => by simp [modifyAt]
  | a :: l, 0, f, 0 => by simp [modifyAt]
  | a :: l, 0, f, j + 1 => by simp [modifyAt]
  | a :: l, i + 1, f, 0 => by simp [modifyAt]
  | a :: l, i + 1, f, j + 1 => by
    simp only [modifyAt, List.get?_cons_succ, get?_modifyAt l i f j]
    by_cases h : j = i
    · simp [h]
    · simp [h, Nat.succ_ne_succ.mpr h]

theorem find?_min_of_pairwise {α : Type} (pred : ℕ × α → Bool) :
    ∀ (l : List (ℕ × α)),
      l.Pairwise (fun p q => p.1 < q.1) →
      ∀ x, l.find? pred = some x →
      x ∈ l ∧ pred x = true ∧ ∀ y ∈ l, pred y = true → x.1 ≤ y.1
  | [], _, x, hx => by simp at hx
  | p :: l, hp, x, hx => by
    rw [List.find?_cons] at hx
    rw [List.pairwise_cons] at hp
    by_cases hpp : pred p
    · rw [hpp] at hx
      obtain rfl : p = x := by injection hx
      refine ⟨List.mem_cons_self _ _, hpp, ?_⟩
      intro y hy hpy
      rcases List.mem_cons.mp hy with rfl | hy'
      · exact le_refl _
      · exact (hp.1 y hy').le
    · rw [Bool.not_eq_true] at hpp
      rw [hpp] at hx
      obtain ⟨hmem, hpred, hmin⟩ := find?_min_of_pairwise pred l hp.2 x hx
      refine ⟨List.mem_cons_of_mem _ hmem, hpred, ?_⟩
      intro y hy hpy
      rcases List.mem_cons.mp hy with rfl | hy'
      · exact absurd hpy (by simp [hpp])
      · exact hmin y hy' hpy

/-- **C3** is false as stated: station `c3st` has a waiting scooter and
its freshly charged battery, but no empty deposit slot, so
`BatteryFullyChargedEvent.process` wakes nobody and returns no event —
the scooter stays `WAITING_FOR_BATTERY`. -/
theorem C3_counterexample :
    c3sc.state = ScooterState.waitingForBattery ∧
    c3sc.target_station_id = some 0 ∧
    c3st.get_empty_slot = none ∧
    (processFullyCharged 0 0 0 c3w rng0).2.2 = [] ∧
    lookupA (processFullyCharged 0 0 0 c3w rng0).1.scooters 0 =
      some c3sc := by
  exact ⟨rfl, rfl, rfl, rfl, rfl⟩


theorem lookupA_eq_of_mem_pairwise {α : Type} :
    ∀ {l : List (ℕ × α)}, l.Pairwise (fun p q => p.1 < q.1) →
      ∀ {k : ℕ} {v : α}, (k, v) ∈ l → lookupA l k = some v
  | [], _, k, v, hm => by simp at hm
  | p :: l, hp, k, v, hm => by
    rw [List.pairwise_cons] at hp
    rcases List.mem_cons.mp hm with rfl | hm'
    · simp [lookupA]
    · have hk : p.1 ≠ k := by
        intro he
        have := hp.1 _ hm'
        simp only [he] at this
        exact lt_irrefl _ this
      simp only [lookupA, hk, if_false]
      exact lookupA_eq_of_mem_pairwise hp.2 hm'

/-- **C3** (amended): the battery is set to exactly its capacity and the
slot's `is_charging` cleared; then, provided the station also has an
empty slot, the waiting scooter with the smallest id (the first in the
id-ordered scooter dict) — and only it — transitions to `SWAPPING`, and a
`BatterySwapEvent` from this battery's slot into the first empty slot is
returned at `current_time + SWAP_DURATION`; with no empty slot no scooter
is woken (see the counterexample). -/
theorem C3_fully_charged (bid stid slot_index : ℕ) (w : World) (rng : Rng)
    (battery : Battery) (st : Station) (slot : ChargingSlot) (empty : ℕ)
    (hb : w.get_battery bid = some battery)
    (hst : w.get_station stid = some st)
    (hslot : st.get_slot slot_index = some slot)
    (hempty : st.get_empty_slot = some empty)
    (hsorted : w.scooters.Pairwise (fun p q => p.1 < q.1))
    (hwait : ∃ p ∈ w.scooters, isWaitingAt stid p = true) :
    ∃ wid wsc, (wid, wsc) ∈ w.scooters ∧
      isWaitingAt stid (wid, wsc) = true ∧
      (∀ q ∈ w.scooters, isWaitingAt stid q = true → wid ≤ q.1) ∧
      (processFullyCharged bid stid slot_index w rng).2.2 =
        [(Event.batterySwap wid stid slot_index empty,
          w.current_time + SWAP_DURATION)] ∧
      lookupA (processFullyCharged bid stid slot_index w rng).1.scooters
          wid = some { wsc with state := ScooterState.swapping } ∧
      (∀ oid, oid ≠ wid →
        lookupA (processFullyCharged bid stid slot_index w rng).1.scooters
          oid = lookupA w.scooters oid) ∧
      lookupA (processFullyCharged bid stid slot_index w rng).1.batteries
          bid = some { battery with
            current_charge_kwh := battery.capacity_kwh } ∧
      ∃ st', lookupA
          (processFullyCharged bid stid slot_index w rng).1.stations stid
          = some st' ∧
        st'.slots.get? slot_index =
          some { slot with is_charging := false } := by
  have hfs : (w.scooters.find? (isWaitingAt stid)).isSome := by
    rw [List.find?_isSome]
    obtain ⟨p, hp, hpw⟩ := hwait
    exact ⟨p, hp, hpw⟩
  obtain ⟨x, hfind⟩ := Option.isSome_iff_exists.mp hfs
  obtain ⟨hmem, hpred, hmin⟩ :=
    find?_min_of_pairwise (isWaitingAt stid) w.scooters hsorted x hfind
  have hred : processFullyCharged bid stid slot_index w rng =
      ({ w with
          batteries := updateA w.batteries bid (fun b =>
            { b with current_charge_kwh := b.capacity_kwh })
          stations := updateA w.stations stid (fun st0 =>
            { st0 with
              slots := modifyAt st0.slots slot_index (fun s =>
                { s with is_charging := false }) })
          scooters := updateA w.scooters x.1 (fun sc =>
            { sc with state := ScooterState.swapping }) },
        rng,
        [(Event.batterySwap x.1 stid slot_index empty,
          w.current_time + SWAP_DURATION)]) := by
    unfold processFullyCharged
    rw [hb, hst]
    dsimp only
    rw [show Station.get_slot st slot_index = some slot from hslot]
    dsimp only
    rw [show List.find? (isWaitingAt stid) w.scooters = some x from hfind]
    rcases x with ⟨wid, wsc⟩
    dsimp only
    rw [show Station.get_empty_slot st = some empty from hempty]
  refine ⟨x.1, x.2, hmem, hpred, hmin, ?_, ?_, ?_, ?_, ?_⟩
  · rw [hred]
  · rw [hred]
    dsimp only
    rw [lookupA_updateA]
    rw [if_pos rfl, lookupA_eq_of_mem_pairwise hsorted hmem]
    rfl
  · intro oid hoid
    rw [hred]
    dsimp only
    rw [lookupA_updateA, if_neg hoid]
  · rw [hred]
    dsimp only
    rw [lookupA_updateA, if_pos rfl]
    rw [show lookupA w.batteries bid = some battery from hb]
    rfl
  · refine ⟨{ st with
        slots := modifyAt st.slots slot_index (fun s =>
          { s with is_charging := false }) }, ?_, ?_⟩
    · rw [hred]
      dsimp only
      rw [lookupA_updateA, if_pos rfl]
      rw [show lookupA w.stations stid = some st from hst]
      rfl
    · rw [get?_modifyAt, if_pos rfl]
      rw [show st.slots.get? slot_index = some slot from hslot]
      rfl


/-- **C3** witness: two waiting scooters (ids 0 and 1) at a station with
an empty slot — the smallest id wins the battery. -/
theorem C3_fully_charged_witness :
    (c3ww.get_battery 0 = some c3b ∧
     c3ww.get_station 0 = some c3wst ∧
     c3wst.get_slot 0 = some ⟨0, some 0, true⟩ ∧
     c3wst.get_empty_slot = some 1 ∧
     c3ww.scooters.Pairwise (fun p q => p.1 < q.1) ∧
     (∃ p ∈ c3ww.scooters, isWaitingAt 0 p = true)) ∧
    (∃ wid wsc, (wid, wsc) ∈ c3ww.scooters ∧
      isWaitingAt 0 (wid, wsc) = true ∧
      (∀ q ∈ c3ww.scooters, isWaitingAt 0 q = true → wid ≤ q.1) ∧
      (processFullyCharged 0 0 0 c3ww rng0).2.2 =
        [(Event.batterySwap wid 0 0 1,
          c3ww.current_time + SWAP_DURATION)] ∧
      lookupA (processFullyCharged 0 0 0 c3ww rng0).1.scooters wid =
        some { wsc with state := ScooterState.swapping } ∧
      (∀ oid, oid ≠ wid →
        lookupA (processFullyCharged 0 0 0 c3ww rng0).1.scooters oid =
          lookupA c3ww.scooters oid) ∧
      lookupA (processFullyCharged 0 0 0 c3ww rng0).1.batteries 0 =
        some { c3b with current_charge_kwh := c3b.capacity_kwh } ∧
      ∃ st', lookupA (processFullyCharged 0 0 0 c3ww rng0).1.stations 0 =
          some st' ∧
        st'.slots.get? 0 =
          some { (⟨0, some 0, true⟩ : ChargingSlot) with
            is_charging := false }) := by
  have hp : c3ww.scooters.Pairwise (fun p q => p.1 < q.1) := by
    simp [c3ww, List.pairwise_cons]
  have hw : ∃ p ∈ c3ww.scooters, isWaitingAt 0 p = true :=
    ⟨(0, c3sc), by simp [c3ww], rfl⟩
  exact ⟨⟨rfl, rfl, rfl, rfl, hp, hw⟩,
    C3_fully_charged 0 0 0 c3ww rng0 c3b c3wst ⟨0, some 0, true⟩ 1
      rfl rfl rfl rfl hp hw⟩



/-! ### C2: BatterySwapEvent -/

/-- `schedule_move` only rewrites the world's movement-strategy state. -/
theorem schedule_move_frame (sid : ℕ) (sc : Scooter) (w : World)
    (rng : Rng) :
    (schedule_move sid sc w rng).2.1.batteries = w.batteries ∧
    (schedule_move sid sc w rng).2.1.stations = w.stations ∧
    (schedule_move sid sc w rng).2.1.scooters = w.scooters ∧
    (schedule_move sid sc w rng).2.1.metrics = w.metrics ∧
    (schedule_move sid sc w rng).2.1.current_time = w.current_time := by
  unfold schedule_move
  rcases hg : (w.movement_strategy.getD
      MovStrat.randomWalk).get_next_destination sid sc w rng with
    ⟨np, st2, rng2⟩
  cases hms : w.movement_strategy <;> simp only [hms] at hg ⊢ <;>
    exact ⟨trivial, trivial, trivial, trivial, trivial⟩

/-- `schedule_move_toward_station` only rewrites strategy state. -/
theorem schedule_move_toward_frame (sid : ℕ) (sc : Scooter) (w : World)
    (rng : Rng) :
    (schedule_move_toward_station sid sc w rng).2.1.batteries =
      w.batteries ∧
    (schedule_move_toward_station sid sc w rng).2.1.stations =
      w.stations ∧
    (schedule_move_toward_station sid sc w rng).2.1.scooters =
      w.scooters ∧
    (schedule_move_toward_station sid sc w rng).2.1.metrics = w.metrics ∧
    (schedule_move_toward_station sid sc w rng).2.1.current_time =
      w.current_time := by
  unfold schedule_move_toward_station
  cases htp : sc.target_position with
  | none => exact schedule_move_frame sid sc w rng
  | some tp => exact ⟨rfl, rfl, rfl, rfl, rfl⟩

/-- `schedule_move_with_activity_check` only rewrites strategy state. -/
theorem schedule_move_check_frame (sid : ℕ) (sc : Scooter) (w : World)
    (rng : Rng) :
    (schedule_move_with_activity_check sid sc w rng).2.1.batteries =
      w.batteries ∧
    (schedule_move_with_activity_check sid sc w rng).2.1.stations =
      w.stations ∧
    (schedule_move_with_activity_check sid sc w rng).2.1.scooters =
      w.scooters ∧
    (schedule_move_with_activity_check sid sc w rng).2.1.metrics =
      w.metrics ∧
    (schedule_move_with_activity_check sid sc w rng).2.1.current_time =
      w.current_time := by
  unfold schedule_move_with_activity_check
  dsimp only
  cases hd : ((sc.activity_strategy.getD
      ActStrat.alwaysActive).check_activity sc w).decision <;>
    simp only [hd]
  · exact schedule_move_frame sid sc w rng
  · exact ⟨trivial, trivial, trivial, trivial, trivial⟩
  · exact ⟨trivial, trivial, trivial, trivial, trivial⟩


/-- **C2**: when the pre-selected take slot still holds a battery (and
the pre-selected deposit slot exists, distinct from it), the swap is
atomic and complete: the old battery moves `IN_STATION` into the deposit
slot (back-references set, `scooter_id` cleared, `is_charging := true`);
the new battery moves `IN_SCOOTER` (scooter set, station refs cleared,
take slot emptied with `is_charging := false`); the scooter carries the
new battery in state `MOVING` with cleared targets; and a
`BatteryFullyChargedEvent` for the deposited battery is scheduled at
`current_time + time_to_full_charge(old, station.charge_rate_kw)` unless
the old battery is already full. -/
theorem C2_battery_swap (sid stid take dep : ℕ) (w : World) (rng : Rng)
    (scooter : Scooter) (st : Station) (tslot dslot : ChargingSlot)
    (new_bid : ℕ) (old_b new_b : Battery)
    (hsc : w.get_scooter sid = some scooter)
    (hst : w.get_station stid = some st)
    (htake : st.get_slot take = some tslot)
    (htb : tslot.battery_id = some new_bid)
    (hdep : st.get_slot dep = some dslot)
    (hne : take ≠ dep)
    (hold : w.get_battery scooter.battery_id = some old_b)
    (hnew : w.get_battery new_bid = some new_b)
    (hbne : scooter.battery_id ≠ new_bid) :
    ∃ w' rng' evs,
      processBatterySwap sid stid take dep w rng =
        Except.ok (w', rng', evs) ∧
      lookupA w'.batteries scooter.battery_id = some
        { old_b with
          location := BatteryLocation.inStation
          station_id := some stid
          slot_index := some dep
          scooter_id := none } ∧
      lookupA w'.batteries new_bid = some
        { new_b with
          location := BatteryLocation.inScooter
          scooter_id := some sid
          station_id := none
          slot_index := none } ∧
      (∃ st', lookupA w'.stations stid = some st' ∧
        st'.slots.get? dep = some
          { dslot with battery_id := some scooter.battery_id
                       is_charging := true } ∧
        st'.slots.get? take = some
          { tslot with battery_id := none, is_charging := false }) ∧
      (∃ sc', lookupA w'.scooters sid = some sc' ∧
        sc'.battery_id = new_bid ∧ sc'.state = ScooterState.moving ∧
        sc'.target_station_id = none ∧ sc'.target_position = none) ∧
      (∃ tail_ev, evs =
        (if old_b.is_full then []
         else [(Event.fullyCharged scooter.battery_id stid dep,
           w.current_time +
             old_b.time_to_full_charge st.charge_rate_kw)]) ++
        [tail_ev]) := by
  unfold processBatterySwap
  rw [hsc, hst]
  dsimp only
  rw [htake]
  dsimp only [Option.bind]
  rw [htb]
  dsimp only
  rw [hold, hnew]
  dsimp only
  rw [hdep]
  dsimp only
  rcases hidle : scooter.idle_until with _ | wake
  · -- no pre-idle: post-swap move via the activity check
    dsimp only [World.withMetrics]
    refine ⟨_, _, _, rfl, ?_, ?_, ?_, ?_, ?_⟩
    · rw [(schedule_move_check_frame _ _ _ _).1]
      rw [lookupA_updateA, if_neg hbne, lookupA_updateA, if_pos rfl,
        show lookupA w.batteries scooter.battery_id = some old_b from hold]
      rfl
    · rw [(schedule_move_check_frame _ _ _ _).1]
      rw [lookupA_updateA, if_pos rfl, lookupA_updateA,
        if_neg (Ne.symm hbne),
        show lookupA w.batteries new_bid = some new_b from hnew]
      rfl
    · refine ⟨{ st with
          slots := modifyAt (modifyAt st.slots dep (fun slot =>
              { slot with battery_id := some scooter.battery_id
                          is_charging := true })) take (fun slot =>
              { slot with battery_id := none, is_charging := false }) },
        ?_, ?_, ?_⟩
      · rw [(schedule_move_check_frame _ _ _ _).2.1]
        rw [lookupA_updateA, if_pos rfl, lookupA_updateA, if_pos rfl,
          show lookupA w.stations stid = some st from hst]
        rfl
      · rw [get?_modifyAt, if_neg (Ne.symm hne), get?_modifyAt, if_pos rfl,
          show st.slots.get? dep = some dslot from hdep]
        rfl
      · rw [get?_modifyAt, if_pos rfl, get?_modifyAt, if_neg hne,
          show st.slots.get? take = some tslot from htake]
        rfl
    · refine ⟨{ scooter with
          battery_id := new_bid
          state := ScooterState.moving
          target_station_id := none
          target_position := none
          idle_until := none }, ?_, rfl, rfl, rfl, rfl⟩
      rw [(schedule_move_check_frame _ _ _ _).2.2.1]
      rw [lookupA_updateA, if_pos rfl,
        show lookupA w.scooters sid = some scooter from hsc]
      rfl
    · have hfa : ({ old_b with
          location := BatteryLocation.inStation
          station_id := some stid
          slot_index := some dep
          scooter_id := none } : Battery).is_full = old_b.is_full := rfl
      have hta : ({ old_b with
          location := BatteryLocation.inStation
          station_id := some stid
          slot_index := some dep
          scooter_id := none } : Battery).time_to_full_charge
          st.charge_rate_kw = old_b.time_to_full_charge st.charge_rate_kw :=
        rfl
      simp only [hfa, hta]
      by_cases hf : old_b.is_full <;>
        simp only [hf, Bool.not_true, Bool.not_false, if_false, if_true] <;>
        exact ⟨_, rfl⟩
  · -- pre-idle flow: stash wake-up and go idle after the swap
    dsimp only [World.withMetrics]
    refine ⟨_, _, _, rfl, ?_, ?_, ?_, ?_, ?_⟩
    · rw [lookupA_updateA, if_neg hbne, lookupA_updateA, if_pos rfl,
        show lookupA w.batteries scooter.battery_id = some old_b from hold]
      rfl
    · rw [lookupA_updateA, if_pos rfl, lookupA_updateA,
        if_neg (Ne.symm hbne),
        show lookupA w.batteries new_bid = some new_b from hnew]
      rfl
    · refine ⟨{ st with
          slots := modifyAt (modifyAt st.slots dep (fun slot =>
              { slot with battery_id := some scooter.battery_id
                          is_charging := true })) take (fun slot =>
              { slot with battery_id := none, is_charging := false }) },
        ?_, ?_, ?_⟩
      · rw [lookupA_updateA, if_pos rfl, lookupA_updateA, if_pos rfl,
          show lookupA w.stations stid = some st from hst]
        rfl
      · rw [get?_modifyAt, if_neg (Ne.symm hne), get?_modifyAt, if_pos rfl,
          show st.slots.get? dep = some dslot from hdep]
        rfl
      · rw [get?_modifyAt, if_pos rfl, get?_modifyAt, if_neg hne,
          show st.slots.get? take = some tslot from htake]
        rfl
    · refine ⟨{ scooter with
          battery_id := new_bid
          state := ScooterState.moving
          target_station_id := none
          target_position := none
          idle_until := none }, ?_, rfl, rfl, rfl, rfl⟩
      rw [lookupA_updateA, if_pos rfl, lookupA_updateA, if_pos rfl,
        show lookupA w.scooters sid = some scooter from hsc]
      rfl
    · have hfa : ({ old_b with
          location := BatteryLocation.inStation
          station_id := some stid
          slot_index := some dep
          scooter_id := none } : Battery).is_full = old_b.is_full := rfl
      have hta : ({ old_b with
          location := BatteryLocation.inStation
          station_id := some stid
          slot_index := some dep
          scooter_id := none } : Battery).time_to_full_charge
          st.charge_rate_kw = old_b.time_to_full_charge st.charge_rate_kw :=
        rfl
      simp only [hfa, hta]
      by_cases hf : old_b.is_full <;>
        simp only [hf, Bool.not_true, Bool.not_false, if_false, if_true] <;>
        exact ⟨_, rfl⟩


/-- **C2** witness: a concrete successful swap at station 0. -/
theorem C2_battery_swap_witness :
    (c2w.get_scooter 0 = some c2sc ∧
     c2w.get_station 0 = some c2st ∧
     c2st.get_slot 0 = some ⟨0, some 0, false⟩ ∧
     c2st.get_slot 1 = some ⟨1, none, false⟩ ∧
     (0 : ℕ) ≠ 1 ∧
     c2w.get_battery c2sc.battery_id = some c2old ∧
     c2w.get_battery 0 = some c2new ∧
     c2sc.battery_id ≠ 0) ∧
    ∃ w' rng' evs,
      processBatterySwap 0 0 0 1 c2w rng0 = Except.ok (w', rng', evs) ∧
      lookupA w'.batteries c2sc.battery_id = some
        { c2old with
          location := BatteryLocation.inStation
          station_id := some 0
          slot_index := some 1
          scooter_id := none } ∧
      lookupA w'.batteries 0 = some
        { c2new with
          location := BatteryLocation.inScooter
          scooter_id := some 0
          station_id := none
          slot_index := none } ∧
      (∃ st', lookupA w'.stations 0 = some st' ∧
        st'.slots.get? 1 = some
          { (⟨1, none, false⟩ : ChargingSlot) with
            battery_id := some c2sc.battery_id
            is_charging := true } ∧
        st'.slots.get? 0 = some
          { (⟨0, some 0, false⟩ : ChargingSlot) with
            battery_id := none, is_charging := false }) ∧
      (∃ sc', lookupA w'.scooters 0 = some sc' ∧
        sc'.battery_id = 0 ∧ sc'.state = ScooterState.moving ∧
        sc'.target_station_id = none ∧ sc'.target_position = none) ∧
      (∃ tail_ev, evs =
        (if c2old.is_full then []
         else [(Event.fullyCharged c2sc.battery_id 0 1,
           c2w.current_time +
             c2old.time_to_full_charge c2st.charge_rate_kw)]) ++
        [tail_ev]) := by
  refine ⟨⟨rfl, rfl, rfl, rfl, by decide, rfl, rfl, by decide⟩, ?_⟩
  exact C2_battery_swap 0 0 0 1 c2w rng0 c2sc c2st ⟨0, some 0, false⟩
    ⟨1, none, false⟩ 0 c2old c2new rfl rfl rfl rfl rfl (by decide) rfl rfl
    (by decide)




/-- C8: event processing is defensive for missing entity ids — an event
referencing a scooter, station, or battery id absent from the world is
processed to no follow-up events with the world and RNG untouched — and a
`ScooterMoveEvent` for a scooter in `MOVING` state (with its battery
present) always completes, returning exactly one follow-up event; every
event type other than `BatterySwapEvent` returns normally on every input.
The exception claimed impossible by the spec survives only in
`BatterySwapEvent.process` (see the counterexample). -/
theorem C8_defensive :
    (∀ (mt : ℚ) (e : Event) (w : World) (rng : Rng), refsMissing e w →
      processEvent mt e w rng = Except.ok (w, rng, [])) ∧
    (∀ (mt : ℚ) (sid : ℕ) (pos : Position) (w : World) (rng : Rng)
        (sc : Scooter) (b : Battery),
      w.get_scooter sid = some sc → sc.state = ScooterState.moving →
      w.get_battery sc.battery_id = some b →
      ∃ w' rng' ev t,
        processEvent mt (Event.scooterMove sid pos) w rng =
          Except.ok (w', rng', [(ev, t)])) ∧
    (∀ (mt : ℚ) (e : Event) (w : World) (rng : Rng),
      (∀ sid stid take dep, e ≠ Event.batterySwap sid stid take dep) →
      ∃ r, processEvent mt e w rng = Except.ok r) := by
  refine ⟨?_, ?_, ?_⟩
  · intro mt e w rng h
    cases e with
    | scooterMove sid pos =>
      rcases h with h | ⟨sc, hsc, hb⟩
      · simp only [processEvent]
        unfold processScooterMove
        rw [h]
      · simp only [processEvent]
        unfold processScooterMove
        rw [hsc]
        dsimp only
        rw [hb]
    | scooterArrive sid stid =>
      simp only [processEvent]
      unfold processScooterArrive
      dsimp only
      rcases h with h | h
      · cases stid with
        | none => rfl
        | some stid' =>
          rw [h]
      · cases stid with
        | none => rfl
        | some stid' =>
          simp only [Option.bind] at h
          dsimp only
          rw [h]
          cases hsc : w.get_scooter sid <;> rfl
    | batterySwap sid stid take dep =>
      simp only [processEvent]
      unfold processBatterySwap
      dsimp only
      rcases h with h | h
      · rw [h]
      · cases hsc0 : w.get_scooter sid
        · rw [h]
        · rw [h]
    | chargingTick stid interval =>
      simp only [processEvent]
      unfold processChargingTick
      dsimp only
      rw [h]
    | fullyCharged bid stid slot =>
      simp only [processEvent]
      unfold processFullyCharged
      dsimp only
      rcases h with h | h
      · rw [h]
      · cases hb0 : w.get_battery bid
        · rw [h]
        · rw [h]
    | goIdle sid wake =>
      simp only [processEvent]
      unfold processGoIdle
      dsimp only
      rw [h]
    | wakeUp sid =>
      simp only [processEvent]
      unfold processWakeUp
      dsimp only
      rw [h]
    | swapThenIdle sid wake =>
      simp only [processEvent]
      unfold processSwapThenIdle
      dsimp only
      rw [h]
    | dailyReset day => exact absurd h (by simp [refsMissing])
  · intro mt sid pos w rng sc b hsc hmove hb
    simp only [processEvent]
    unfold processScooterMove
    dsimp only
    rw [hsc]
    dsimp only
    rw [hb]
    dsimp only
    split
    · exact ⟨_, _, _, _, rfl⟩
    · split
      · split
        · exact ⟨_, _, _, _, rfl⟩
        · exact ⟨_, _, _, _, rfl⟩
      · split
        · exact ⟨_, _, _, _, rfl⟩
        · exact ⟨_, _, _, _, rfl⟩
    · rename_i hnm hnt
      exfalso
      split at hnm
      · rename_i hcond
        split at hnm
        · rename_i nid nst hne
          rw [if_pos hcond, hne] at hnt
          exact hnt rfl
        · exact hnm hmove
      · exact hnm hmove
  · intro mt e w rng hne
    cases e with
    | batterySwap sid stid take dep => exact absurd rfl (hne sid stid take dep)
    | scooterMove sid pos => exact ⟨_, rfl⟩
    | scooterArrive sid stid => exact ⟨_, rfl⟩
    | chargingTick stid interval => exact ⟨_, rfl⟩
    | fullyCharged bid stid slot => exact ⟨_, rfl⟩
    | goIdle sid wake => exact ⟨_, rfl⟩
    | wakeUp sid => exact ⟨_, rfl⟩
    | swapThenIdle sid wake => exact ⟨_, rfl⟩
    | dailyReset day => exact ⟨_, rfl⟩

/-- C8 counterexample: `BatterySwapEvent.process` never validates
`deposit_to_slot`. With the take slot occupied and both batteries
present, an out-of-range deposit index raises
(`deposit_slot.battery_id = ...` on `None`) only after the old battery's
`location`/`station_id`/`slot_index`/`scooter_id` were rewritten: the
exception escapes with a corrupted world in which battery 1 is
`IN_STATION` at the nonexistent slot 5 while scooter 0 still carries it. -/
theorem C8_counterexample :
    ∃ w', processEvent 0 (Event.batterySwap 0 0 0 5) c8w rng0 =
        Except.error w' ∧
      (w'.get_battery 1).map Battery.location =
        some BatteryLocation.inStation ∧
      (w'.get_battery 1).map Battery.slot_index = some (some 5) ∧
      (w'.get_scooter 0).map Scooter.battery_id = some 1 := by
  exact ⟨_, rfl, rfl, rfl, rfl⟩

/-- C8 witness: the defensive theorem applied at concrete inputs — a
`GoIdle` for an unknown scooter id is a no-op, a move of the `MOVING`
scooter of `c6w` completes with one follow-up, and a `WakeUp` returns
normally. -/
theorem C8_defensive_witness :
    (processEvent 0 (Event.goIdle 7 5) c8w rng0 =
      Except.ok (c8w, rng0, [])) ∧
    (∃ w' rng' ev t, processEvent 0 (Event.scooterMove 0 ⟨1, 0⟩) c6w rng0 =
      Except.ok (w', rng', [(ev, t)])) ∧
    (∃ r, processEvent 0 (Event.wakeUp 3) c8w rng0 = Except.ok r) :=
  ⟨C8_defensive.1 0 (Event.goIdle 7 5) c8w rng0 rfl,
   C8_defensive.2.1 0 0 ⟨1, 0⟩ c6w rng0 c6sc c6b rfl rfl rfl,
   C8_defensive.2.2 0 (Event.wakeUp 3) c8w rng0
     (fun _ _ _ _ h => Event.noConfusion h)⟩


/-- Membership in an updated dict: either an untouched entry (whose key is
not the updated one) or the rewritten entry. -/
theorem mem_updateA {α : Type} :
    ∀ {l : List (ℕ × α)} {k : ℕ} {f : α → α} {q : ℕ × α},
      q ∈ updateA l k f →
      (q ∈ l ∧ q.1 ≠ k) ∨ ∃ a, (k, a) ∈ l ∧ q = (k, f a)
  | [], _, _, _, hq => absurd hq (List.not_mem_nil _)
  | p :: l, k, f, q, hq => by
    rw [updateA, List.mem_cons] at hq
    rcases hq with hq | hq
    · by_cases hk : p.1 = k
      · rw [if_pos hk, hk] at hq
        exact Or.inr ⟨p.2, by rw [← hk]; exact List.mem_cons_self _ _, hq⟩
      · rw [if_neg hk] at hq
        subst hq
        exact Or.inl ⟨List.mem_cons_self _ _, hk⟩
    · rcases mem_updateA hq with ⟨hm, hne⟩ | ⟨a, hm, he⟩
      · exact Or.inl ⟨List.mem_cons_of_mem _ hm, hne⟩
      · exact Or.inr ⟨a, List.mem_cons_of_mem _ hm, he⟩

/-- Updating never changes the key list. -/
theorem map_fst_updateA {α : Type} :
    ∀ (l : List (ℕ × α)) (k : ℕ) (f : α → α),
      (updateA l k f).map Prod.fst = l.map Prod.fst
  | [], _, _ => rfl
  | p :: l, k, f => by
    rw [updateA, List.map_cons, List.map_cons, map_fst_updateA l k f]
    by_cases hk : p.1 = k
    · rw [if_pos hk, hk]
    · rw [if_neg hk]

/-- A successful lookup exhibits a member. -/
theorem lookupA_mem {α : Type} :
    ∀ {l : List (ℕ × α)} {k : ℕ} {a : α},
      lookupA l k = some a → (k, a) ∈ l
  | [], _, _, h => by simp [lookupA] at h
  | p :: l, k, a, h => by
    rw [lookupA] at h
    by_cases hk : p.1 = k
    · rw [if_pos hk] at h
      rw [List.mem_cons]
      left
      have ha : p.2 = a := Option.some_inj.mp h
      rw [← hk, ← ha]
    · rw [if_neg hk] at h
      exact List.mem_cons_of_mem _ (lookupA_mem h)

/-- With distinct keys, membership determines the lookup. -/
theorem lookupA_of_mem_nodup {α : Type} :
    ∀ {l : List (ℕ × α)}, (l.map Prod.fst).Nodup →
      ∀ {k : ℕ} {a : α}, (k, a) ∈ l → lookupA l k = some a
  | [], _, _, _, hm => absurd hm (List.not_mem_nil _)
  | p :: l, hnd, k, a, hm => by
    rw [List.map_cons, List.nodup_cons] at hnd
    rcases List.mem_cons.mp hm with rfl | hm'
    · simp [lookupA]
    · have hk : p.1 ≠ k := by
        intro he
        exact hnd.1 (he ▸ List.mem_map.mpr ⟨(k, a), hm', rfl⟩)
      rw [lookupA, if_neg hk]
      exact lookupA_of_mem_nodup hnd.2 hm'

/-- With distinct keys, two members sharing a key coincide. -/
theorem eq_of_key_nodup {α : Type} {l : List (ℕ × α)}
    (hnd : (l.map Prod.fst).Nodup) {p q : ℕ × α}
    (hp : p ∈ l) (hq : q ∈ l) (hk : p.1 = q.1) : p = q := by
  have hp' := lookupA_of_mem_nodup hnd (show (p.1, p.2) ∈ l from hp)
  have hq' := lookupA_of_mem_nodup hnd (show (q.1, q.2) ∈ l from hq)
  rw [hk, hq'] at hp'
  have h2 : q.2 = p.2 := Option.some_inj.mp hp'
  calc p = (p.1, p.2) := rfl
    _ = (q.1, q.2) := by rw [hk, h2]
    _ = q := rfl

/-- `enum` membership is `get?`. -/
theorem mem_enum_iff_getQ {α : Type} (l : List α) (k : ℕ) (a : α) :
    (k, a) ∈ l.enum ↔ l.get? k = some a := by
  suffices h : ∀ (l : List α) (n k : ℕ) (a : α),
      (n + k, a) ∈ l.enumFrom n ↔ l.get? k = some a by
    simpa using h l 0 k a
  intro l
  induction l with
  | nil => intro n k a; simp [List.enumFrom]
  | cons x xs ih =>
    intro n k a
    rw [List.enumFrom, List.mem_cons]
    cases k with
    | zero =>
      simp only [Nat.add_zero, List.get?, Option.some_inj]
      constructor
      · rintro (he | hm)
        · exact ((Prod.mk.injEq _ _ _ _).mp he).2.symm
        · exfalso
          have := (List.mem_enumFrom hm).1
          omega
      · rintro rfl; exact Or.inl rfl
    | succ k =>
      simp only [List.get?]
      rw [← ih (n + 1) k a]
      constructor
      · rintro (he | hm)
        · exfalso
          have hh := ((Prod.mk.injEq _ _ _ _).mp he).1
          omega
        · have hh : n + (k + 1) = n + 1 + k := by omega
          rwa [hh] at hm
      · intro hm
        right
        have hh : n + 1 + k = n + (k + 1) := by omega
        rwa [hh] at hm

/-- Reading off a true `slotBatteryOkB` at an occupied slot. -/
theorem slotOkB_spec {w : World} {stid k : ℕ} {s : ChargingSlot}
    (h : slotBatteryOkB w stid (k, s) = true) {bid : ℕ}
    (hb : s.battery_id = some bid) :
    ∃ b, lookupA w.batteries bid = some b ∧
      b.location = BatteryLocation.inStation ∧ b.station_id = some stid ∧
      b.slot_index = some k := by
  unfold slotBatteryOkB at h
  rw [hb] at h
  dsimp only at h
  rcases hl : lookupA w.batteries bid with _ | b
  · rw [hl] at h
    exact absurd h (by simp)
  · rw [hl] at h
    simp only [Bool.and_eq_true, decide_eq_true_eq] at h
    exact ⟨b, rfl, h.1.1, h.1.2, h.2⟩

/-- Reading off a true `scooterBatteryOkB`. -/
theorem scooterOkB_spec {w : World} {p : ℕ × Scooter}
    (h : scooterBatteryOkB w p = true) :
    ∃ b, lookupA w.batteries p.2.battery_id = some b ∧
      b.location = BatteryLocation.inScooter ∧
      b.scooter_id = some p.1 := by
  unfold scooterBatteryOkB at h
  rcases hl : lookupA w.batteries p.2.battery_id with _ | b
  · rw [hl] at h
    exact absurd h (by simp)
  · rw [hl] at h
    simp only [Bool.and_eq_true, decide_eq_true_eq] at h
    exact ⟨b, rfl, h.1, h.2⟩

/-- Slot back-references force distinct occupied slots to hold distinct
batteries. -/
theorem noDupSlotRefs_of (w : World)
    (hslot : ∀ p ∈ w.stations, ∀ q ∈ p.2.slots.enum,
      slotBatteryOkB w p.1 q = true)
    (hnd : (w.stations.map Prod.fst).Nodup) : noDupSlotRefs w := by
  intro p₁ hp₁ p₂ hp₂ k₁ k₂ s₁ s₂ hg₁ hg₂ bid hb₁ hb₂
  have h₁ := hslot p₁ hp₁ (k₁, s₁) ((mem_enum_iff_getQ _ _ _).mpr hg₁)
  have h₂ := hslot p₂ hp₂ (k₂, s₂) ((mem_enum_iff_getQ _ _ _).mpr hg₂)
  rcases slotOkB_spec h₁ hb₁ with ⟨b, hlb, _, hst₁, hsl₁⟩
  rcases slotOkB_spec h₂ hb₂ with ⟨c, hlc, _, hst₂, hsl₂⟩
  rw [hlb] at hlc
  cases Option.some_inj.mp hlc
  have hk : p₁.1 = p₂.1 := by
    rw [hst₁] at hst₂
    exact Option.some_inj.mp hst₂
  have hkk : k₁ = k₂ := by
    rw [hsl₁] at hsl₂
    exact Option.some_inj.mp hsl₂
  exact ⟨eq_of_key_nodup hnd hp₁ hp₂ hk, hkk⟩

/-- Battery back-references separate scooter-held and slot-held
batteries. -/
theorem scooterSlotDisjoint_of (w : World)
    (hsc : ∀ p ∈ w.scooters, scooterBatteryOkB w p = true)
    (hslot : ∀ p ∈ w.stations, ∀ q ∈ p.2.slots.enum,
      slotBatteryOkB w p.1 q = true) : scooterSlotDisjoint w := by
  intro p hp q hq k s hg heq
  rcases scooterOkB_spec (hsc p hp) with ⟨b, hlb, hlo, _⟩
  rcases slotOkB_spec
      (hslot q hq (k, s) ((mem_enum_iff_getQ _ _ _).mpr hg)) heq with
    ⟨c, hlc, hlo2, _, _⟩
  rw [hlb] at hlc
  cases Option.some_inj.mp hlc
  rw [hlo] at hlo2
  exact BatteryLocation.noConfusion hlo2

/-- The claim invariants from the decidable world invariant pieces. -/
theorem ListedInv_of_parts (w : World)
    (hcb : chargeBounds w) (hbr : backrefsExact w)
    (hsc : ∀ p ∈ w.scooters, scooterBatteryOkB w p = true)
    (hslot : ∀ p ∈ w.stations, ∀ q ∈ p.2.slots.enum,
      slotBatteryOkB w p.1 q = true)
    (hnd : (w.stations.map Prod.fst).Nodup) : ListedInv w :=
  ⟨hcb, hbr, noDupSlotRefs_of w hslot hnd,
    scooterSlotDisjoint_of w hsc hslot⟩

/-- `WorldInv` subsumes the claim invariants. -/
theorem ListedInv_of_inv (w : World) (hw : WorldInv w) : ListedInv w := by
  obtain ⟨hcb, hbr, _, _, _, hscok, hslok, _, hnds, _⟩ := hw
  exact ListedInv_of_parts w hcb hbr hscok hslok hnds

/-- Transport of the claim invariants along a step that keeps every
battery well-placed and in bounds, keeps the station key list, keeps
every slot battery assignment, and only rewrites non-battery scooter
fields. -/
theorem ListedInv_frame (w w2 : World) (hw : WorldInv w)
    (hbat : ∀ p ∈ w2.batteries, backrefOk p.2 ∧
      0 ≤ p.2.current_charge_kwh ∧
      p.2.current_charge_kwh ≤ p.2.capacity_kwh)
    (hstk : w2.stations.map Prod.fst = w.stations.map Prod.fst)
    (hst : ∀ p ∈ w2.stations, ∃ q ∈ w.stations, p.1 = q.1 ∧
      ∀ k, (p.2.slots.get? k).map ChargingSlot.battery_id =
        (q.2.slots.get? k).map ChargingSlot.battery_id)
    (hsc : ∀ p ∈ w2.scooters, ∃ q ∈ w.scooters,
      p.2.battery_id = q.2.battery_id) : ListedInv w2 := by
  obtain ⟨hcb, hbr, hcap, hrate, hcons, hscok, hslok, hndb, hnds, hndc⟩ :=
    hw
  have hndst2 : (w2.stations.map Prod.fst).Nodup := hstk ▸ hnds
  refine ⟨fun p hp => (hbat p hp).2, fun p hp => (hbat p hp).1, ?_, ?_⟩
  · intro p₁ hp₁ p₂ hp₂ k₁ k₂ s₁ s₂ hg₁ hg₂ bid hb₁ hb₂
    rcases hst p₁ hp₁ with ⟨q₁, hq₁, hk₁, hpt₁⟩
    rcases hst p₂ hp₂ with ⟨q₂, hq₂, hk₂, hpt₂⟩
    have h₁ : (q₁.2.slots.get? k₁).map ChargingSlot.battery_id =
        some (some bid) := by
      rw [← hpt₁ k₁, hg₁, Option.map_some', hb₁]
    have h₂ : (q₂.2.slots.get? k₂).map ChargingSlot.battery_id =
        some (some bid) := by
      rw [← hpt₂ k₂, hg₂, Option.map_some', hb₂]
    rcases Option.map_eq_some'.mp h₁ with ⟨t₁, ht₁, htb₁⟩
    rcases Option.map_eq_some'.mp h₂ with ⟨t₂, ht₂, htb₂⟩
    have hd := noDupSlotRefs_of w hslok hnds q₁ hq₁ q₂ hq₂ k₁ k₂ t₁ t₂
      ht₁ ht₂ bid htb₁ htb₂
    refine ⟨eq_of_key_nodup hndst2 hp₁ hp₂ ?_, hd.2⟩
    rw [hk₁, hk₂, hd.1]
  · intro p hp q hq k s hg heq
    rcases hsc p hp with ⟨pc, hpc, hbid⟩
    rcases hst q hq with ⟨qs, hqs, hkq, hpt⟩
    have h1 : (qs.2.slots.get? k).map ChargingSlot.battery_id =
        some (some p.2.battery_id) := by
      rw [← hpt k, hg, Option.map_some', heq]
    rcases Option.map_eq_some'.mp h1 with ⟨t, ht, htb⟩
    have hdisj := scooterSlotDisjoint_of w hscok hslok pc hpc qs hqs k t ht
    rw [hbid] at htb
    exact hdisj htb

/-- `backrefOk` only reads the four placement fields. -/
theorem backrefOk_congr {a b : Battery}
    (hl : a.location = b.location) (hsc : a.scooter_id = b.scooter_id)
    (hst : a.station_id = b.station_id) (hsl : a.slot_index = b.slot_index)
    (h : backrefOk b) : backrefOk a := by
  unfold backrefOk at h ⊢
  rw [hl, hsc, hst, hsl]
  exact h

/-- The battery side conditions of `ListedInv_frame`, from the invariant
itself. -/
theorem hbat_of_inv (w : World) (hw : WorldInv w) :
    ∀ p ∈ w.batteries, backrefOk p.2 ∧ 0 ≤ p.2.current_charge_kwh ∧
      p.2.current_charge_kwh ≤ p.2.capacity_kwh :=
  fun p hp => ⟨hw.2.1 p hp, (hw.1 p hp).1, (hw.1 p hp).2⟩

/-- The battery side conditions after one keyed update. -/
theorem hbat_update (w : World) (hw : WorldInv w) (k : ℕ)
    (f : Battery → Battery)
    (hf : ∀ a, (k, a) ∈ w.batteries →
      backrefOk (f a) ∧ 0 ≤ (f a).current_charge_kwh ∧
        (f a).current_charge_kwh ≤ (f a).capacity_kwh) :
    ∀ p ∈ updateA w.batteries k f, backrefOk p.2 ∧
      0 ≤ p.2.current_charge_kwh ∧
      p.2.current_charge_kwh ≤ p.2.capacity_kwh := by
  intro p hp
  rcases mem_updateA hp with ⟨hm, _⟩ | ⟨a, hm, he⟩
  · exact hbat_of_inv w hw p hm
  · rw [he]
    exact hf a hm

/-- The station side condition of `ListedInv_frame` after one keyed
update that keeps every slot battery assignment. -/
theorem hst_update_slots (l : List (ℕ × Station)) (k : ℕ)
    (f : Station → Station)
    (hf : ∀ a, ∀ j, ((f a).slots.get? j).map ChargingSlot.battery_id =
      (a.slots.get? j).map ChargingSlot.battery_id) :
    ∀ p ∈ updateA l k f, ∃ q ∈ l, p.1 = q.1 ∧
      ∀ j, (p.2.slots.get? j).map ChargingSlot.battery_id =
        (q.2.slots.get? j).map ChargingSlot.battery_id := by
  intro p hp
  rcases mem_updateA hp with ⟨hm, _⟩ | ⟨a, hm, he⟩
  · exact ⟨p, hm, rfl, fun j => rfl⟩
  · refine ⟨(k, a), hm, by rw [he], ?_⟩
    rw [he]
    exact hf a

/-- The scooter side condition of `ListedInv_frame` after one keyed
update, relative to any already-established relation. -/
theorem scRel_update (w0 : World) (l : List (ℕ × Scooter)) (k : ℕ)
    (f : Scooter → Scooter)
    (h : ∀ p ∈ l, ∃ q ∈ w0.scooters, p.2.battery_id = q.2.battery_id)
    (hf : ∀ a, (k, a) ∈ l →
      ∃ q ∈ w0.scooters, (f a).battery_id = q.2.battery_id) :
    ∀ p ∈ updateA l k f, ∃ q ∈ w0.scooters,
      p.2.battery_id = q.2.battery_id := by
  intro p hp
  rcases mem_updateA hp with ⟨hm, _⟩ | ⟨a, hm, he⟩
  · exact h p hm
  · rw [he]
    exact hf a hm

/-- The reflexive scooter side condition. -/
theorem scRel_refl (w0 : World) :
    ∀ p ∈ w0.scooters, ∃ q ∈ w0.scooters,
      p.2.battery_id = q.2.battery_id :=
  fun p hp => ⟨p, hp, rfl⟩

/-- `ScooterGoIdleEvent.process` preserves the claim invariants. -/
theorem inv_processGoIdle (sid : ℕ) (wake : ℚ) (w : World) (rng : Rng)
    (hw : WorldInv w) : ListedInv (processGoIdle sid wake w rng).1 := by
  unfold processGoIdle
  cases hsc : w.get_scooter sid with
  | none => exact ListedInv_of_inv w hw
  | some sc =>
    dsimp only
    refine ListedInv_frame w _ hw (hbat_of_inv w hw) rfl
      (fun q hq => ⟨q, hq, rfl, fun j => rfl⟩) ?_
    exact scRel_update w w.scooters sid _ (scRel_refl w)
      (fun a hm => ⟨(sid, a), hm, rfl⟩)

/-- `ScooterArriveAtStationEvent.process` preserves the claim
invariants. -/
theorem inv_processScooterArrive (sid : ℕ) (stid : Option ℕ) (w : World)
    (rng : Rng) (hw : WorldInv w) :
    ListedInv (processScooterArrive sid stid w rng).1 := by
  unfold processScooterArrive
  cases stid with
  | none => exact ListedInv_of_inv w hw
  | some stid =>
    dsimp only
    cases hsc : w.get_scooter sid with
    | none => exact ListedInv_of_inv w hw
    | some sc =>
      cases hstn : w.get_station stid with
      | none => exact ListedInv_of_inv w hw
      | some station =>
        dsimp only
        cases hbest : station.get_best_battery_slot w.batteries with
        | none =>
          dsimp only
          refine ListedInv_frame w _ hw (hbat_of_inv w hw) rfl
            (fun q hq => ⟨q, hq, rfl, fun j => rfl⟩) ?_
          exact scRel_update w w.scooters sid _ (scRel_refl w)
            (fun a hm => ⟨(sid, a), hm, rfl⟩)
        | some best =>
          cases hemp : station.get_empty_slot with
          | none =>
            dsimp only
            refine ListedInv_frame w _ hw (hbat_of_inv w hw) rfl
              (fun q hq => ⟨q, hq, rfl, fun j => rfl⟩) ?_
            exact scRel_update w w.scooters sid _ (scRel_refl w)
              (fun a hm => ⟨(sid, a), hm, rfl⟩)
          | some empty =>
            dsimp only
            refine ListedInv_frame w _ hw (hbat_of_inv w hw) rfl
              (fun q hq => ⟨q, hq, rfl, fun j => rfl⟩) ?_
            exact scRel_update w w.scooters sid _ (scRel_refl w)
              (fun a hm => ⟨(sid, a), hm, rfl⟩)

/-- `ScooterWakeUpEvent.process` preserves the claim invariants. -/
theorem inv_processWakeUp (sid : ℕ) (w : World) (rng : Rng)
    (hw : WorldInv w) : ListedInv (processWakeUp sid w rng).1 := by
  unfold processWakeUp
  cases hsc : w.get_scooter sid with
  | none => exact ListedInv_of_inv w hw
  | some sc =>
    dsimp only
    by_cases hidle : sc.state ≠ ScooterState.idle
    · rw [if_pos hidle]
      exact ListedInv_of_inv w hw
    · rw [if_neg hidle]
      by_cases hwake : (! (sc.activity_strategy.getD
          ActStrat.alwaysActive).should_wake_up sc w w.current_time) = true
      · rw [if_pos hwake]
        cases hwt : ((sc.activity_strategy.getD
            ActStrat.alwaysActive).check_activity sc w).wake_up_time with
        | none => exact ListedInv_of_inv w hw
        | some t =>
          dsimp only
          by_cases ht : t ≠ 0
          · rw [if_pos ht]
            exact ListedInv_of_inv w hw
          · rw [if_neg ht]
            exact ListedInv_of_inv w hw
      · rw [if_neg hwake]
        dsimp only
        refine ListedInv_frame w _ hw ?_ ?_ ?_ ?_
        · rw [(schedule_move_frame sid _ _ rng).1]
          exact hbat_of_inv w hw
        · rw [(schedule_move_frame sid _ _ rng).2.1]
        · rw [(schedule_move_frame sid _ _ rng).2.1]
          exact fun q hq => ⟨q, hq, rfl, fun j => rfl⟩
        · rw [(schedule_move_frame sid _ _ rng).2.2.1]
          exact scRel_update w w.scooters sid _ (scRel_refl w)
            (fun a hm => ⟨(sid, sc), lookupA_mem hsc, rfl⟩)

/-- `ScooterSwapThenIdleEvent.process` preserves the claim invariants. -/
theorem inv_processSwapThenIdle (sid : ℕ) (wake : ℚ) (w : World)
    (rng : Rng) (hw : WorldInv w) :
    ListedInv (processSwapThenIdle sid wake w rng).1 := by
  unfold processSwapThenIdle
  cases hsc : w.get_scooter sid with
  | none => exact ListedInv_of_inv w hw
  | some sc =>
    dsimp only
    cases hnear : World.find_nearest_station _ sc.position with
    | none =>
      dsimp only
      refine ListedInv_frame w _ hw (hbat_of_inv w hw) rfl
        (fun q hq => ⟨q, hq, rfl, fun j => rfl⟩) ?_
      exact scRel_update w w.scooters sid _ (scRel_refl w)
        (fun a hm => ⟨(sid, sc), lookupA_mem hsc, rfl⟩)
    | some pr =>
      dsimp only
      refine ListedInv_frame w _ hw ?_ ?_ ?_ ?_
      · rw [(schedule_move_toward_frame sid _ _ rng).1]
        exact hbat_of_inv w hw
      · rw [(schedule_move_toward_frame sid _ _ rng).2.1]
      · rw [(schedule_move_toward_frame sid _ _ rng).2.1]
        exact fun q hq => ⟨q, hq, rfl, fun j => rfl⟩
      · rw [(schedule_move_toward_frame sid _ _ rng).2.2.1]
        refine scRel_update w _ sid _ ?_
          (fun a hm => ⟨(sid, sc), lookupA_mem hsc, rfl⟩)
        exact scRel_update w w.scooters sid _ (scRel_refl w)
          (fun a hm => ⟨(sid, sc), lookupA_mem hsc, rfl⟩)

/-- Manhattan distance is non-negative. -/
theorem distance_to_nonneg (p q : Position) : 0 ≤ p.distance_to q := by
  unfold Position.distance_to
  exact Nat.cast_nonneg _

/-- The battery conditions after an in-place `consume_energy` of a
non-negative amount. -/
theorem hbat_consume (w : World) (hw : WorldInv w) (k : ℕ) (b : Battery)
    (hb : lookupA w.batteries k = some b) (e : ℚ) (he : 0 ≤ e) :
    ∀ p ∈ updateA w.batteries k (fun _ => b.consume_energy e),
      backrefOk p.2 ∧ 0 ≤ p.2.current_charge_kwh ∧
      p.2.current_charge_kwh ≤ p.2.capacity_kwh := by
  refine hbat_update w hw k _ (fun a hm => ?_)
  have hOk : backrefOk b := hw.2.1 (k, b) (lookupA_mem hb)
  have hbd := hw.1 (k, b) (lookupA_mem hb)
  have hcapb := hw.2.2.1 (k, b) (lookupA_mem hb)
  refine ⟨hOk, le_max_left 0 _, ?_⟩
  unfold Battery.consume_energy
  dsimp only
  exact max_le (le_of_lt hcapb) (le_trans (sub_le_self _ he) hbd.2)

/-- The battery conditions after an in-place set-to-capacity. -/
theorem hbat_setFull (w : World) (hw : WorldInv w) (k : ℕ) :
    ∀ p ∈ updateA w.batteries k
        (fun b => { b with current_charge_kwh := b.capacity_kwh }),
      backrefOk p.2 ∧ 0 ≤ p.2.current_charge_kwh ∧
      p.2.current_charge_kwh ≤ p.2.capacity_kwh := by
  refine hbat_update w hw k _ (fun a hm => ?_)
  exact ⟨hw.2.1 (k, a) hm, le_of_lt (hw.2.2.1 (k, a) hm), le_refl _⟩

/-- Clearing a slot charging flag keeps every slot battery assignment. -/
theorem hst_clear_charging (l : List (ℕ × Station)) (k slot : ℕ) :
    ∀ p ∈ updateA l k (fun st =>
      { st with
        slots := modifyAt st.slots slot
          (fun s => { s with is_charging := false }) }),
      ∃ q ∈ l, p.1 = q.1 ∧
        ∀ j, (p.2.slots.get? j).map ChargingSlot.battery_id =
          (q.2.slots.get? j).map ChargingSlot.battery_id := by
  refine hst_update_slots l k _ (fun a j => ?_)
  dsimp only
  rw [get?_modifyAt]
  by_cases hj : j = slot
  · rw [if_pos hj, hj]
    cases a.slots.get? slot <;> rfl
  · rw [if_neg hj]

/-- `BatteryFullyChargedEvent.process` preserves the claim invariants. -/
theorem inv_processFullyCharged (bid stid slot : ℕ) (w : World)
    (rng : Rng) (hw : WorldInv w) :
    ListedInv (processFullyCharged bid stid slot w rng).1 := by
  unfold processFullyCharged
  cases hb : w.get_battery bid with
  | none => exact ListedInv_of_inv w hw
  | some battery =>
    cases hstn : w.get_station stid with
    | none => exact ListedInv_of_inv w hw
    | some station =>
      dsimp only
      cases hslot : station.get_slot slot with
      | none =>
        dsimp only
        cases hfind : List.find? (isWaitingAt stid) _ with
        | none =>
          exact ListedInv_frame w _ hw (hbat_setFull w hw bid) rfl
            (fun q hq => ⟨q, hq, rfl, fun j => rfl⟩) (scRel_refl w)
        | some pr =>
          rcases pr with ⟨waiting_id, wsc⟩
          dsimp only
          cases hemp : station.get_empty_slot with
          | none =>
            exact ListedInv_frame w _ hw (hbat_setFull w hw bid) rfl
              (fun q hq => ⟨q, hq, rfl, fun j => rfl⟩) (scRel_refl w)
          | some empty =>
            dsimp only
            refine ListedInv_frame w _ hw (hbat_setFull w hw bid) rfl
              (fun q hq => ⟨q, hq, rfl, fun j => rfl⟩) ?_
            exact scRel_update w w.scooters waiting_id _ (scRel_refl w)
              (fun a hm => ⟨(waiting_id, a), hm, rfl⟩)
      | some theSlot =>
        dsimp only
        cases hfind : List.find? (isWaitingAt stid) _ with
        | none =>
          exact ListedInv_frame w _ hw (hbat_setFull w hw bid)
            (map_fst_updateA _ _ _) (hst_clear_charging _ stid slot)
            (scRel_refl w)
        | some pr =>
          rcases pr with ⟨waiting_id, wsc⟩
          dsimp only
          cases hemp : station.get_empty_slot with
          | none =>
            exact ListedInv_frame w _ hw (hbat_setFull w hw bid)
              (map_fst_updateA _ _ _) (hst_clear_charging _ stid slot)
              (scRel_refl w)
          | some empty =>
            dsimp only
            refine ListedInv_frame w _ hw (hbat_setFull w hw bid)
              (map_fst_updateA _ _ _) (hst_clear_charging _ stid slot) ?_
            exact scRel_update w w.scooters waiting_id _ (scRel_refl w)
              (fun a hm => ⟨(waiting_id, a), hm, rfl⟩)

/-- `ScooterMoveEvent.process` preserves the claim invariants. -/
theorem inv_processScooterMove (sid : ℕ) (pos : Position) (w : World)
    (rng : Rng) (hw : WorldInv w) :
    ListedInv (processScooterMove sid pos w rng).1 := by
  unfold processScooterMove
  cases hsc : w.get_scooter sid with
  | none => exact ListedInv_of_inv w hw
  | some sc =>
    dsimp only
    cases hb : w.get_battery sc.battery_id with
    | none => exact ListedInv_of_inv w hw
    | some b =>
      dsimp only
      have he : 0 ≤ sc.position.distance_to pos * sc.consumption_rate :=
        mul_nonneg (distance_to_nonneg _ _)
          (le_of_lt (hw.2.2.2.2.1 (sid, sc) (lookupA_mem hsc)))
      refine ListedInv_frame w _ hw ?_ ?_ ?_ ?_
      · repeat' split
        all_goals first
          | (rw [(schedule_move_check_frame _ _ _ _).1]
             exact hbat_consume w hw sc.battery_id b hb _ he)
          | (rw [(schedule_move_toward_frame _ _ _ _).1]
             exact hbat_consume w hw sc.battery_id b hb _ he)
          | exact hbat_consume w hw sc.battery_id b hb _ he
      · repeat' split
        all_goals first
          | rw [(schedule_move_check_frame _ _ _ _).2.1]
          | rw [(schedule_move_toward_frame _ _ _ _).2.1]
          | rfl
      · repeat' split
        all_goals first
          | (rw [(schedule_move_check_frame _ _ _ _).2.1]
             exact fun q hq => ⟨q, hq, rfl, fun j => rfl⟩)
          | (rw [(schedule_move_toward_frame _ _ _ _).2.1]
             exact fun q hq => ⟨q, hq, rfl, fun j => rfl⟩)
          | exact fun q hq => ⟨q, hq, rfl, fun j => rfl⟩
      · repeat' split
        all_goals first
          | (rw [(schedule_move_check_frame _ _ _ _).2.2.1]
             exact scRel_update w w.scooters sid _ (scRel_refl w)
               (fun a hm => ⟨(sid, sc), lookupA_mem hsc, rfl⟩))
          | (rw [(schedule_move_toward_frame _ _ _ _).2.2.1]
             exact scRel_update w w.scooters sid _ (scRel_refl w)
               (fun a hm => ⟨(sid, sc), lookupA_mem hsc, rfl⟩))
          | exact scRel_update w w.scooters sid _ (scRel_refl w)
              (fun a hm => ⟨(sid, sc), lookupA_mem hsc, rfl⟩)

/-- One charging step keeps every battery well-placed, of unchanged
capacity, and in bounds, when the added amount is non-negative. -/
theorem chargeStep_refs (st : Station) (iv : ℚ)
    (hamt : 0 ≤ st.charge_rate_kw * iv / 3600) (w0 : World)
    (hcap : ∀ q ∈ w0.batteries, 0 < q.2.capacity_kwh) (w : World)
    (hI : ∀ p ∈ w.batteries, ∃ q ∈ w0.batteries,
      p.2.location = q.2.location ∧ p.2.scooter_id = q.2.scooter_id ∧
      p.2.station_id = q.2.station_id ∧ p.2.slot_index = q.2.slot_index ∧
      p.2.capacity_kwh = q.2.capacity_kwh ∧
      0 ≤ p.2.current_charge_kwh ∧
      p.2.current_charge_kwh ≤ p.2.capacity_kwh) (slot : ChargingSlot) :
    ∀ p ∈ (chargeSlotStep st iv w slot).batteries,
      ∃ q ∈ w0.batteries,
        p.2.location = q.2.location ∧ p.2.scooter_id = q.2.scooter_id ∧
        p.2.station_id = q.2.station_id ∧
        p.2.slot_index = q.2.slot_index ∧
        p.2.capacity_kwh = q.2.capacity_kwh ∧
        0 ≤ p.2.current_charge_kwh ∧
        p.2.current_charge_kwh ≤ p.2.capacity_kwh := by
  unfold chargeSlotStep
  cases hbid : slot.battery_id with
  | none => exact hI
  | some bid =>
    dsimp only
    by_cases hch : slot.is_charging = true
    · rw [if_pos hch]
      cases hlk : lookupA w.batteries bid with
      | none => exact hI
      | some battery =>
        dsimp only
        by_cases hfull : (! battery.is_full) = true
        · rw [if_pos hfull]
          intro p hp
          rcases mem_updateA hp with ⟨hm, _⟩ | ⟨a, hm, hea⟩
          · exact hI p hm
          · rcases hI (bid, battery) (lookupA_mem hlk) with
              ⟨q, hq, h1, h2, h3, h4, h5, h6, h7⟩
            refine ⟨q, hq, ?_⟩
            rw [hea]
            refine ⟨h1, h2, h3, h4, h5, ?_, ?_⟩
            · unfold Battery.add_charge
              dsimp only
              refine le_min ?_ (add_nonneg h6 hamt)
              rw [h5]
              exact le_of_lt (hcap q hq)
            · unfold Battery.add_charge
              dsimp only
              exact min_le_left _ _
        · rw [if_neg hfull]
          exact hI
    · rw [if_neg hch]
      exact hI

/-- The charging fold keeps every battery well-placed and in bounds. -/
theorem chargeFold_refs (st : Station) (iv : ℚ)
    (hamt : 0 ≤ st.charge_rate_kw * iv / 3600) (w0 : World)
    (hcap : ∀ q ∈ w0.batteries, 0 < q.2.capacity_kwh) :
    ∀ (slots : List ChargingSlot) (w : World),
      (∀ p ∈ w.batteries, ∃ q ∈ w0.batteries,
        p.2.location = q.2.location ∧ p.2.scooter_id = q.2.scooter_id ∧
        p.2.station_id = q.2.station_id ∧
        p.2.slot_index = q.2.slot_index ∧
        p.2.capacity_kwh = q.2.capacity_kwh ∧
        0 ≤ p.2.current_charge_kwh ∧
        p.2.current_charge_kwh ≤ p.2.capacity_kwh) →
      ∀ p ∈ (slots.foldl (chargeSlotStep st iv) w).batteries,
        ∃ q ∈ w0.batteries,
          p.2.location = q.2.location ∧ p.2.scooter_id = q.2.scooter_id ∧
          p.2.station_id = q.2.station_id ∧
          p.2.slot_index = q.2.slot_index ∧
          p.2.capacity_kwh = q.2.capacity_kwh ∧
          0 ≤ p.2.current_charge_kwh ∧
          p.2.current_charge_kwh ≤ p.2.capacity_kwh
  | [], _, hI => hI
  | slot :: rest, w, hI =>
    chargeFold_refs st iv hamt w0 hcap rest _
      (chargeStep_refs st iv hamt w0 hcap w hI slot)

/-- `BatteryChargingTickEvent.process` preserves the claim invariants
(for the non-negative tick intervals the program constructs). -/
theorem inv_processChargingTick (stid : ℕ) (iv maxT : ℚ) (w : World)
    (rng : Rng) (hw : WorldInv w) (hiv : 0 ≤ iv) :
    ListedInv (processChargingTick stid iv maxT w rng).1 := by
  unfold processChargingTick
  cases hstn : w.get_station stid with
  | none => exact ListedInv_of_inv w hw
  | some station =>
    dsimp only
    have hamt : 0 ≤ station.charge_rate_kw * iv / 3600 :=
      div_nonneg (mul_nonneg
        (le_of_lt (hw.2.2.2.1 (stid, station) (lookupA_mem hstn))) hiv)
        (by norm_num)
    rcases exists_batteries_chargeFold station iv station.slots w with
      ⟨bs, hbs⟩
    refine ListedInv_frame w _ hw ?_ ?_ ?_ ?_
    · intro p hp
      rcases chargeFold_refs station iv hamt w hw.2.2.1 station.slots w
          (fun p hp => ⟨p, hp, rfl, rfl, rfl, rfl, rfl,
            (hw.1 p hp).1, (hw.1 p hp).2⟩) p hp with
        ⟨q, hq, h1, h2, h3, h4, h5, h6, h7⟩
      exact ⟨backrefOk_congr h1 h2 h3 h4 (hw.2.1 q hq), h6, h7⟩
    · rw [hbs]
    · rw [hbs]
      exact fun q hq => ⟨q, hq, rfl, fun j => rfl⟩
    · rw [hbs]
      exact scRel_refl w

/-- One daily-reset step keeps batteries and stations and only rewrites
non-battery scooter fields. -/
theorem dailyResetStep_comps (w0 : World) (k : ℕ)
    (acc : World × Rng × List (Event × ℚ))
    (hb : acc.1.batteries = w0.batteries)
    (hs : acc.1.stations = w0.stations)
    (hc : ∀ p ∈ acc.1.scooters, ∃ q ∈ w0.scooters,
      p.2.battery_id = q.2.battery_id) :
    (dailyResetStep acc k).1.batteries = w0.batteries ∧
    (dailyResetStep acc k).1.stations = w0.stations ∧
    (∀ p ∈ (dailyResetStep acc k).1.scooters, ∃ q ∈ w0.scooters,
      p.2.battery_id = q.2.battery_id) := by
  unfold dailyResetStep
  rcases acc with ⟨w, rng, evs⟩
  dsimp only at hb hs hc ⊢
  cases hsc : w.get_scooter k with
  | none => exact ⟨hb, hs, hc⟩
  | some sc =>
    dsimp only
    split
    · refine ⟨?_, ?_, ?_⟩
      · rw [(schedule_move_frame k _ _ rng).1]
        exact hb
      · rw [(schedule_move_frame k _ _ rng).2.1]
        exact hs
      · rw [(schedule_move_frame k _ _ rng).2.2.1]
        refine scRel_update w0 _ k _ ?_ ?_
        · exact scRel_update w0 w.scooters k _ hc
            (fun a hm => hc (k, sc) (lookupA_mem hsc))
        · exact fun a hm => hc (k, sc) (lookupA_mem hsc)
    · refine ⟨hb, hs, ?_⟩
      exact scRel_update w0 w.scooters k _ hc
        (fun a hm => hc (k, sc) (lookupA_mem hsc))

/-- The daily-reset fold keeps batteries and stations and only rewrites
non-battery scooter fields. -/
theorem dailyReset_fold_comps (w0 : World) :
    ∀ (keys : List ℕ) (acc : World × Rng × List (Event × ℚ)),
      acc.1.batteries = w0.batteries →
      acc.1.stations = w0.stations →
      (∀ p ∈ acc.1.scooters, ∃ q ∈ w0.scooters,
        p.2.battery_id = q.2.battery_id) →
      (keys.foldl dailyResetStep acc).1.batteries = w0.batteries ∧
      (keys.foldl dailyResetStep acc).1.stations = w0.stations ∧
      (∀ p ∈ (keys.foldl dailyResetStep acc).1.scooters,
        ∃ q ∈ w0.scooters, p.2.battery_id = q.2.battery_id)
  | [], _, hb, hs, hc => ⟨hb, hs, hc⟩
  | k :: keys, acc, hb, hs, hc =>
    dailyReset_fold_comps w0 keys (dailyResetStep acc k)
      (dailyResetStep_comps w0 k acc hb hs hc).1
      (dailyResetStep_comps w0 k acc hb hs hc).2.1
      (dailyResetStep_comps w0 k acc hb hs hc).2.2

/-- `DailyResetEvent.process` preserves the claim invariants. -/
theorem inv_processDailyReset (day : ℕ) (maxT : ℚ) (w : World)
    (rng : Rng) (hw : WorldInv w) :
    ListedInv (processDailyReset day maxT w rng).1 := by
  unfold processDailyReset
  dsimp only
  have hcomp := dailyReset_fold_comps w (w.scooters.map (fun p => p.1))
    (w, rng, []) rfl rfl (scRel_refl w)
  refine ListedInv_frame w _ hw ?_ ?_ ?_ ?_
  · rw [hcomp.1]
    exact hbat_of_inv w hw
  · rw [hcomp.2.1]
  · rw [hcomp.2.1]
    exact fun q hq => ⟨q, hq, rfl, fun j => rfl⟩
  · exact hcomp.2.2

/-- The heart of the `BatterySwapEvent` case: after the six swap
mutations the claim invariants hold, for any deposit index (the deposit
slot may coincide with the take slot or overwrite an occupied slot) and
any further rewriting of non-battery scooter fields. -/
theorem swapInvCore (w : World) (hw : WorldInv w) (sid stid take dep : ℕ)
    (scooter : Scooter) (hsc : lookupA w.scooters sid = some scooter)
    (station : Station) (hstn : lookupA w.stations stid = some station)
    (tslot : ChargingSlot) (hts : station.slots.get? take = some tslot)
    (new_id : ℕ) (htb : tslot.battery_id = some new_id)
    (oldb : Battery)
    (hold : lookupA w.batteries scooter.battery_id = some oldb)
    (newb : Battery) (hnew : lookupA w.batteries new_id = some newb)
    (w2 : World)
    (hB : w2.batteries = updateA (updateA w.batteries scooter.battery_id
      (fun _ => { oldb with
        location := BatteryLocation.inStation
        station_id := some stid
        slot_index := some dep
        scooter_id := none })) new_id
      (fun _ => { newb with
        location := BatteryLocation.inScooter
        scooter_id := some sid
        station_id := none
        slot_index := none }))
    (hS : w2.stations = updateA (updateA w.stations stid (fun st =>
      { st with
        slots := modifyAt st.slots dep (fun slot =>
          { slot with
            battery_id := some scooter.battery_id
            is_charging := true }) })) stid (fun st =>
      { st with
        slots := modifyAt st.slots take (fun slot =>
          { slot with battery_id := none, is_charging := false }) }))
    (hC : ∀ p ∈ w2.scooters,
      (p ∈ w.scooters ∧ p.1 ≠ sid) ∨
        (p.1 = sid ∧ p.2.battery_id = new_id)) :
    ListedInv w2 := by
  obtain ⟨hcb, hbr, hcap, hrate, hcons, hscokAll, hslokAll, hndb, hnds,
    hndc⟩ := hw
  have hmemSc := lookupA_mem hsc
  have hmemSt := lookupA_mem hstn
  have hmemOld := lookupA_mem hold
  have hmemNew := lookupA_mem hnew
  rcases scooterOkB_spec (hscokAll (sid, scooter) hmemSc) with
    ⟨b₁, hb₁, hloc₁, hsid₁⟩
  rw [hold] at hb₁
  cases Option.some_inj.mp hb₁
  have henum := (mem_enum_iff_getQ station.slots take tslot).mpr hts
  rcases slotOkB_spec (hslokAll (stid, station) hmemSt (take, tslot) henum)
      htb with ⟨b₂, hb₂, hloc₂, hstid₂, hslot₂⟩
  rw [hnew] at hb₂
  cases Option.some_inj.mp hb₂
  have hneid : scooter.battery_id ≠ new_id := by
    intro h
    rw [h, hnew] at hold
    cases Option.some_inj.mp hold
    rw [hloc₁] at hloc₂
    exact BatteryLocation.noConfusion hloc₂
  have hbrOld := hbr _ hmemOld
  have holdSt : oldb.station_id = none := (hbrOld.1 hloc₁).2.1
  have holdSl : oldb.slot_index = none := (hbrOld.1 hloc₁).2.2
  have hlook2 : ∀ bid, bid ≠ scooter.battery_id → bid ≠ new_id →
      lookupA w2.batteries bid = lookupA w.batteries bid := by
    intro bid h1 h2
    rw [hB, lookupA_updateA, if_neg h2, lookupA_updateA, if_neg h1]
  have hlookOld : lookupA w2.batteries scooter.battery_id =
      some { oldb with
        location := BatteryLocation.inStation
        station_id := some stid
        slot_index := some dep
        scooter_id := none } := by
    rw [hB, lookupA_updateA, if_neg hneid, lookupA_updateA, if_pos rfl,
      hold]
    rfl
  have hlookNew : lookupA w2.batteries new_id =
      some { newb with
        location := BatteryLocation.inScooter
        scooter_id := some sid
        station_id := none
        slot_index := none } := by
    rw [hB, lookupA_updateA, if_pos rfl, lookupA_updateA,
      if_neg (fun h => hneid h.symm), hnew]
    rfl
  refine ListedInv_of_parts w2 ?_ ?_ ?_ ?_ ?_
  · -- chargeBounds
    intro p hp
    rw [hB] at hp
    rcases mem_updateA hp with ⟨hp1, _⟩ | ⟨a, hp1, he⟩
    · rcases mem_updateA hp1 with ⟨hp2, _⟩ | ⟨a, hp2, he⟩
      · exact hcb p hp2
      · rw [he]
        exact ⟨(hcb _ hmemOld).1, (hcb _ hmemOld).2⟩
    · rw [he]
      exact ⟨(hcb _ hmemNew).1, (hcb _ hmemNew).2⟩
  · -- backrefsExact
    intro p hp
    rw [hB] at hp
    rcases mem_updateA hp with ⟨hp1, _⟩ | ⟨a, hp1, he⟩
    · rcases mem_updateA hp1 with ⟨hp2, _⟩ | ⟨a, hp2, he⟩
      · exact hbr p hp2
      · rw [he]
        exact ⟨fun h => BatteryLocation.noConfusion h,
          fun _ => ⟨rfl, fun h0 => Option.noConfusion h0,
            fun h0 => Option.noConfusion h0⟩⟩
    · rw [he]
      exact ⟨fun _ => ⟨fun h0 => Option.noConfusion h0, rfl, rfl⟩,
        fun h => BatteryLocation.noConfusion h⟩
  · -- scooterBatteryOkB on w2
    intro p hp
    rcases hC p hp with ⟨hm, hne⟩ | ⟨hid, hbid⟩
    · rcases scooterOkB_spec (hscokAll p hm) with ⟨b, hbL, hbl, hbs⟩
      have hne2 : p.2.battery_id ≠ new_id := by
        intro h
        rw [h, hnew] at hbL
        cases Option.some_inj.mp hbL
        rw [hbl] at hloc₂
        exact BatteryLocation.noConfusion hloc₂
      have hne1 : p.2.battery_id ≠ scooter.battery_id := by
        intro h
        rw [h, hold] at hbL
        cases Option.some_inj.mp hbL
        rw [hbs] at hsid₁
        exact hne (Option.some_inj.mp hsid₁)
      unfold scooterBatteryOkB
      rw [hlook2 _ hne1 hne2, hbL]
      simp [hbl, hbs]
    · unfold scooterBatteryOkB
      rw [hbid, hlookNew]
      simp [hid]
  · -- slotBatteryOkB on w2
    intro p hp q hq
    rw [hS] at hp
    rcases mem_updateA hp with ⟨hp1, hpk⟩ | ⟨a, hp1, he⟩
    · rcases mem_updateA hp1 with ⟨hp2, _⟩ | ⟨a, hp2, he⟩
      · -- untouched station, key ≠ stid
        rcases q with ⟨j, s⟩
        cases hsb : s.battery_id with
        | none =>
          unfold slotBatteryOkB
          rw [hsb]
        | some bid =>
          rcases slotOkB_spec (hslokAll p hp2 (j, s) hq) hsb with
            ⟨b, hbL, hbl, hbst, hbsl⟩
          have hne1 : bid ≠ scooter.battery_id := by
            intro h
            rw [h, hold] at hbL
            cases Option.some_inj.mp hbL
            rw [holdSt] at hbst
            exact Option.noConfusion hbst
          have hne2 : bid ≠ new_id := by
            intro h
            rw [h, hnew] at hbL
            cases Option.some_inj.mp hbL
            rw [hstid₂] at hbst
            exact hpk (Option.some_inj.mp hbst).symm
          unfold slotBatteryOkB
          rw [hsb]
          dsimp only
          rw [hlook2 _ hne1 hne2, hbL]
          simp [hbl, hbst, hbsl]
      · exact absurd (by rw [he]) hpk
    · -- the swapped station
      rcases mem_updateA hp1 with ⟨hp2, hpk⟩ | ⟨a0, hp2, he0⟩
      · exact absurd rfl hpk
      · have ha0 : (stid, a0) = (stid, station) :=
          eq_of_key_nodup hnds hp2 hmemSt rfl
        cases (Prod.mk.injEq _ _ _ _).mp ha0 |>.2
        rw [(Prod.mk.injEq _ _ _ _).mp he0 |>.2] at he
        rcases q with ⟨j, s⟩
        rw [he] at hq
        dsimp only at hq
        rw [mem_enum_iff_getQ] at hq
        rw [get?_modifyAt] at hq
        by_cases hj : j = take
        · rw [if_pos hj, get?_modifyAt] at hq
          rcases Option.map_eq_some'.mp hq with ⟨s0, _, hs0⟩
          unfold slotBatteryOkB
          rw [← hs0]
        · rw [if_neg hj, get?_modifyAt] at hq
          by_cases hj2 : j = dep
          · rw [if_pos hj2] at hq
            rcases Option.map_eq_some'.mp hq with ⟨s1, _, hs1⟩
            unfold slotBatteryOkB
            rw [← hs1, he]
            dsimp only
            rw [hlookOld]
            simp [hj2]
          · rw [if_neg hj2] at hq
            cases hsb : s.battery_id with
            | none =>
              unfold slotBatteryOkB
              rw [hsb]
            | some bid =>
              rcases slotOkB_spec (hslokAll (stid, station) hmemSt (j, s)
                  ((mem_enum_iff_getQ _ _ _).mpr hq)) hsb with
                ⟨b, hbL, hbl, hbst, hbsl⟩
              have hne1 : bid ≠ scooter.battery_id := by
                intro h
                rw [h, hold] at hbL
                cases Option.some_inj.mp hbL
                rw [holdSt] at hbst
                exact Option.noConfusion hbst
              have hne2 : bid ≠ new_id := by
                intro h
                rw [h, hnew] at hbL
                cases Option.some_inj.mp hbL
                rw [hslot₂] at hbsl
                exact hj (Option.some_inj.mp hbsl).symm
              unfold slotBatteryOkB
              rw [hsb, he]
              dsimp only
              rw [hlook2 _ hne1 hne2, hbL]
              simp [hbl, hbst, hbsl]
  · rw [hS, map_fst_updateA, map_fst_updateA]
    exact hnds

/-- `BatterySwapEvent.process` preserves the claim invariants, on both
its normal and its raising path. -/
theorem inv_processBatterySwap (sid stid take dep : ℕ) (w : World)
    (rng : Rng) (hw : WorldInv w) :
    ListedInv (outWorld (processBatterySwap sid stid take dep w rng)) := by
  unfold processBatterySwap
  cases hsc : w.get_scooter sid with
  | none => exact ListedInv_of_inv w hw
  | some scooter =>
    cases hstn : w.get_station stid with
    | none => exact ListedInv_of_inv w hw
    | some station =>
      dsimp only
      cases htb : (station.get_slot take).bind
          (fun slot => slot.battery_id) with
      | none =>
        dsimp only
        cases hbest : station.get_best_battery_slot w.batteries with
        | some best =>
          cases hemp : station.get_empty_slot with
          | some empty => exact ListedInv_of_inv w hw
          | none =>
            dsimp only
            refine ListedInv_frame w _ hw (hbat_of_inv w hw) rfl
              (fun q hq => ⟨q, hq, rfl, fun j => rfl⟩) ?_
            exact scRel_update w w.scooters sid _ (scRel_refl w)
              (fun a hm => ⟨(sid, a), hm, rfl⟩)
        | none =>
          dsimp only
          cases hemp : station.get_empty_slot <;>
            · refine ListedInv_frame w _ hw (hbat_of_inv w hw) rfl
                (fun q hq => ⟨q, hq, rfl, fun j => rfl⟩) ?_
              exact scRel_update w w.scooters sid _ (scRel_refl w)
                (fun a hm => ⟨(sid, a), hm, rfl⟩)
      | some new_id =>
        dsimp only
        cases hold : w.get_battery scooter.battery_id with
        | none =>
          dsimp only
          cases hnew : w.get_battery new_id <;>
            exact ListedInv_of_inv w hw
        | some oldb =>
          cases hnew : w.get_battery new_id with
          | none => exact ListedInv_of_inv w hw
          | some newb =>
            dsimp only
            rcases hts : station.get_slot dep with _ | dslot
            · -- raising path: the old battery was already rewritten
              dsimp only
              refine ListedInv_frame w _ hw ?_ rfl
                (fun q hq => ⟨q, hq, rfl, fun j => rfl⟩) (scRel_refl w)
              refine hbat_update w hw scooter.battery_id _
                (fun a hm => ?_)
              refine ⟨⟨fun h => BatteryLocation.noConfusion h,
                fun _ => ⟨rfl, fun h0 => Option.noConfusion h0,
                  fun h0 => Option.noConfusion h0⟩⟩, ?_, ?_⟩
              · exact (hw.1 _ (lookupA_mem hold)).1
              · exact (hw.1 _ (lookupA_mem hold)).2
            · -- normal path
              dsimp only
              have htsq : station.slots.get? take = some
                  ((station.get_slot take).getD dslot) := by
                rcases hts2 : station.get_slot take with _ | tslot
                · rw [hts2] at htb
                  exact absurd htb (by simp)
                · exact hts2
              have htbq : ((station.get_slot take).getD dslot).battery_id
                  = some new_id := by
                rcases hts2 : station.get_slot take with _ | tslot
                · rw [hts2] at htb
                  exact absurd htb (by simp)
                · rw [hts2] at htb
                  simpa using htb
              cases hidle : scooter.idle_until with
              | some wake =>
                dsimp only
                refine swapInvCore w hw sid stid take dep scooter hsc
                  station hstn _ htsq new_id htbq oldb hold newb hnew
                  _ rfl rfl ?_
                intro p hp
                rcases mem_updateA hp with ⟨hp1, hne⟩ | ⟨a, hp1, he⟩
                · rcases mem_updateA hp1 with ⟨hp2, _⟩ | ⟨a, hp2, he⟩
                  · exact Or.inl ⟨hp2, hne⟩
                  · exact absurd (by rw [he]) hne
                · rcases mem_updateA hp1 with ⟨hp2, hne⟩ | ⟨a0, hp2, he0⟩
                  · exact absurd rfl hne
                  · refine Or.inr ⟨by rw [he], ?_⟩
                    rw [he, (Prod.mk.injEq _ _ _ _).mp he0 |>.2]
              | none =>
                dsimp only [outWorld]
                refine swapInvCore w hw sid stid take dep scooter hsc
                  station hstn _ htsq new_id htbq oldb hold newb hnew
                  _ ?_ ?_ ?_
                · rw [(schedule_move_check_frame sid _ _ rng).1]
                  rfl
                · rw [(schedule_move_check_frame sid _ _ rng).2.1]
                  rfl
                · rw [(schedule_move_check_frame sid _ _ rng).2.2.1]
                  intro p hp
                  rcases mem_updateA hp with ⟨hp1, hne⟩ | ⟨a, hp1, he⟩
                  · exact Or.inl ⟨hp1, hne⟩
                  · exact Or.inr ⟨by rw [he], by rw [he]⟩

/-- **C1**: starting from a world satisfying the cross-entity invariants
(`WorldInv`, the decidable form of spec §3), processing any event the
program constructs (`EventWF`) preserves the listed invariants — charge
bounds, exactly-one consistent battery back-reference, and no battery id
in two slots or in a scooter and a slot at once — whether processing
returns normally or raises. -/
theorem C1_invariants_preserved (mt : ℚ) (e : Event) (w : World)
    (rng : Rng) (hw : WorldInv w) (he : EventWF e) :
    ListedInv (outWorld (processEvent mt e w rng)) := by
  cases e with
  | scooterMove sid pos => exact inv_processScooterMove sid pos w rng hw
  | scooterArrive sid stid =>
    exact inv_processScooterArrive sid stid w rng hw
  | batterySwap sid stid take dep =>
    exact inv_processBatterySwap sid stid take dep w rng hw
  | chargingTick stid interval =>
    exact inv_processChargingTick stid interval mt w rng hw he
  | fullyCharged bid stid slot =>
    exact inv_processFullyCharged bid stid slot w rng hw
  | goIdle sid wake => exact inv_processGoIdle sid wake w rng hw
  | wakeUp sid => exact inv_processWakeUp sid w rng hw
  | swapThenIdle sid wake => exact inv_processSwapThenIdle sid wake w rng hw
  | dailyReset day => exact inv_processDailyReset day mt w rng hw

/-- C1 witness: the invariants hold after the concrete battery swap of
the `c2w` world (both `WorldInv c2w` and the event well-formedness are
discharged on the concrete input). -/
theorem C1_invariants_preserved_witness :
    ListedInv (outWorld (processEvent 10000 (Event.batterySwap 0 0 0 1)
      c2w rng0)) := by
  refine C1_invariants_preserved 10000 (Event.batterySwap 0 0 0 1) c2w
    rng0 ⟨?_, ?_, ?_, ?_, ?_, ?_, ?_, ?_, ?_, ?_⟩ trivial
  · intro p hp
    simp only [c2w, List.mem_cons, List.not_mem_nil, or_false] at hp
    rcases hp with rfl | rfl <;> norm_num [c2new, c2old]
  · intro p hp
    simp only [c2w, List.mem_cons, List.not_mem_nil, or_false] at hp
    rcases hp with rfl | rfl
    · exact ⟨fun h => BatteryLocation.noConfusion h,
        fun _ => ⟨rfl, fun h0 => Option.noConfusion h0,
          fun h0 => Option.noConfusion h0⟩⟩
    · exact ⟨fun _ => ⟨fun h0 => Option.noConfusion h0, rfl, rfl⟩,
        fun h => BatteryLocation.noConfusion h⟩
  · intro p hp
    simp only [c2w, List.mem_cons, List.not_mem_nil, or_false] at hp
    rcases hp with rfl | rfl <;> norm_num [c2new, c2old]
  · intro p hp
    simp only [c2w, List.mem_cons, List.not_mem_nil, or_false] at hp
    rcases hp with rfl
    norm_num [c2st]
  · intro p hp
    simp only [c2w, List.mem_cons, List.not_mem_nil, or_false] at hp
    rcases hp with rfl
    norm_num [c2sc]
  · decide
  · decide
  · decide
  · decide
  · decide

end RoadToRack
